import Mathlib

/-!
Verification development for the niuss VPN control plane (Rust sources under
`api/src`).  The definitions below are a shallow embedding of the data model
and of the operations the claims concern: JSON documents (`serde_json::Value`),
the relational rows, the purchase transactor, the referral rebate, the clash
configuration renderer, the subscription materializer, the traffic aggregator,
client-IP extraction and registration.  Machine integers (`i64`, `i32`) are
modelled as `Int`; the only place an integer cast matters is the `as u16`
port cast, modelled as `% 65536`.  Strings are modelled as Lean `String`
(ASCII fragment; the sources only treat ASCII specially).  Database reads and
writes inside one SQL transaction are modelled as pure state passing on a
`DBState` snapshot; `NOW()` is an explicit `now : Int` parameter.
-/

namespace Niuss

/-- Model of `serde_json::Value`. -/
inductive Json where
  | str : String → Json
  | num : Int → Json
  | jbool : Bool → Json
  | jnull : Json
  | arr : List Json → Json
  | obj : List (String × Json) → Json

/-- Key lookup in an object field list (model of the map behind `Value::Object`). -/
def lookupJ : List (String × Json) → String → Option Json
  | [], _ => none
  | (k, v) :: rest, key => if k == key then some v else lookupJ rest key

/-- Model of `Value::get(key)`: key lookup on objects, `None` on every other variant. -/
def jget (j : Json) (key : String) : Option Json :=
  match j with
  | .obj fields => lookupJ fields key
  | _ => none

/-- Model of `config[key] = v` for a key that is known to be absent
(`serde_json` index assignment inserts into objects, turns `Null` into a
fresh object, and panics on the remaining variants; the panic branches are
unreachable in `merge_node_config` for object configs and are modelled as
the identity). -/
def jsetNew (j : Json) (key : String) (v : Json) : Json :=
  match j with
  | .obj fields => .obj (fields ++ [(key, v)])
  | .jnull => .obj [(key, v)]
  | other => other

/-- Model of `Value::as_str`. -/
def asStr : Json → Option String
  | .str s => some s
  | _ => none

/-- Model of `Value::as_bool`. -/
def asBool : Json → Option Bool
  | .jbool b => some b
  | _ => none

/-- Model of `Value::as_u64` (numbers that are nonnegative). -/
def asU64 : Json → Option Int
  | .num n => if 0 ≤ n then some n else none
  | _ => none

/-- Model of `Value::as_array`. -/
def asArr : Json → Option (List Json)
  | .arr l => some l
  | _ => none

/-- Model of the `as u16` cast applied to `node.port : i32`. -/
def toU16 (i : Int) : Int := i % 65536

/-- Row of the `users` table (`models.rs`). -/
structure User where
  id : Int
  email : String
  password_hash : String
  coin_balance : Int
  traffic_quota : Int
  traffic_used : Int
  referral_code : Option String
  referred_by : Option Int
  status : String
  is_admin : Bool
  created_at : Int
  updated_at : Int
deriving DecidableEq, Repr

/-- Row of the `packages` table (`models.rs`). -/
structure Package where
  id : Int
  name : String
  traffic_amount : Int
  price : Int
  duration_days : Int
  description : Option String
  is_active : Bool
deriving DecidableEq, Repr

/-- Row of the `orders` table (`models.rs`). -/
structure Order where
  id : Int
  order_no : String
  user_id : Int
  package_id : Int
  amount : Int
  status : String
  created_at : Int
  completed_at : Option Int
deriving DecidableEq, Repr

/-- Row of the `user_packages` table (`models.rs`). -/
structure UserPackage where
  id : Int
  user_id : Int
  package_id : Int
  order_id : Int
  traffic_quota : Int
  traffic_used : Int
  expires_at : Int
  status : String
deriving DecidableEq, Repr

/-- Row of the `coin_transactions` table (`models.rs`); the SQL column
`type` is the Rust field `transaction_type`. -/
structure CoinTransaction where
  id : Int
  user_id : Int
  amount : Int
  transaction_type : String
  description : Option String
  created_at : Int
deriving DecidableEq, Repr

/-- Row of the `subscriptions` table (`models.rs`). -/
structure Subscription where
  id : Int
  user_id : Int
  token : String
  created_at : Int
  last_accessed : Option Int
deriving DecidableEq, Repr

/-- Row of the `nodes` table.  `models.rs` omits `include_in_clash` and
`sort_order`, but the SQL in `db.rs` (`WHERE include_in_clash = true`,
`ORDER BY sort_order ASC, name ASC`) and the tests in `clash.rs` use both
columns, so the row is modelled with them. -/
structure Node where
  id : Int
  name : String
  host : String
  port : Int
  protocol : String
  secret : String
  config : Json
  status : String
  max_users : Int
  current_users : Int
  include_in_clash : Bool
  sort_order : Int
  created_at : Int

/-- Row of the `clash_proxies` table (`models.rs`). -/
structure ClashProxyRow where
  id : Int
  name : String
  proxy_type : String
  server : String
  port : Int
  config : Json
  is_active : Bool
  sort_order : Int

/-- Row of the `clash_proxy_groups` table (`models.rs`). -/
structure ClashProxyGroupRow where
  id : Int
  name : String
  group_type : String
  proxies : List String
  is_active : Bool
  sort_order : Int
deriving DecidableEq, Repr

/-- Row of the `clash_rules` table (`models.rs`). -/
structure ClashRuleRow where
  id : Int
  rule_type : String
  rule_value : Option String
  proxy_group : String
  no_resolve : Bool
  is_active : Bool
  sort_order : Int
deriving DecidableEq, Repr

/-- Snapshot of the relational store, with fresh-id counters for the
serial primary keys. -/
structure DBState where
  users : List User
  packages : List Package
  orders : List Order
  user_packages : List UserPackage
  coin_transactions : List CoinTransaction
  subscriptions : List Subscription
  nodes : List Node
  clash_proxies : List ClashProxyRow
  clash_proxy_groups : List ClashProxyGroupRow
  clash_rules : List ClashRuleRow
  next_user_id : Int
  next_order_id : Int
  next_user_package_id : Int
  next_coin_transaction_id : Int

/-- `ApiError` from `handlers.rs`. -/
inductive ApiErr where
  | badRequest (msg : String)
  | unauthorized (msg : String)
  | notFound (msg : String)
  | conflict (msg : String)
  | internal (msg : String)
deriving DecidableEq, Repr

/-- HTTP status of an `ApiError` (`IntoResponse for ApiError`). -/
def apiStatus : ApiErr → Nat
  | .badRequest _ => 400
  | .unauthorized _ => 401
  | .notFound _ => 404
  | .conflict _ => 409
  | .internal _ => 500

/-- `SELECT * FROM users WHERE id = $1` (`db.rs get_user_by_id`). -/
def findUser (st : DBState) (uid : Int) : Option User :=
  st.users.find? (fun u => u.id == uid)

/-- `SELECT * FROM users WHERE email = $1` (`db.rs get_user_by_email`). -/
def findUserByEmail (st : DBState) (email : String) : Option User :=
  st.users.find? (fun u => u.email == email)

/-- `SELECT * FROM users WHERE referral_code = $1` (`db.rs get_user_by_referral_code`). -/
def findUserByReferralCode (st : DBState) (code : String) : Option User :=
  st.users.find? (fun u => u.referral_code == some code)

/-- `SELECT * FROM packages WHERE id = $1` (`db.rs get_package_by_id`). -/
def findPackage (st : DBState) (pid : Int) : Option Package :=
  st.packages.find? (fun p => p.id == pid)

/-- `SELECT * FROM subscriptions WHERE token = $1` (`db.rs get_subscription_by_token`). -/
def findSubByToken (st : DBState) (token : String) : Option Subscription :=
  st.subscriptions.find? (fun s => s.token == token)

/-- `UPDATE users SET coin_balance = $2, updated_at = NOW() WHERE id = $1`. -/
def setUserBalance (st : DBState) (uid : Int) (nb : Int) (now : Int) : DBState :=
  { st with users := st.users.map (fun u =>
      if u.id == uid then { u with coin_balance := nb, updated_at := now } else u) }

/-- `UPDATE users SET traffic_quota = $2, updated_at = NOW() WHERE id = $1`. -/
def setUserTrafficQuota (st : DBState) (uid : Int) (nq : Int) (now : Int) : DBState :=
  { st with users := st.users.map (fun u =>
      if u.id == uid then { u with traffic_quota := nq, updated_at := now } else u) }

/-- `INSERT INTO coin_transactions (user_id, amount, type, description)` with
the serial id and the `created_at` default; returns the inserted row. -/
def insertCoinTransaction (st : DBState) (uid amount : Int) (ttype : String)
    (description : Option String) (now : Int) : DBState × CoinTransaction :=
  let t : CoinTransaction :=
    { id := st.next_coin_transaction_id, user_id := uid, amount := amount,
      transaction_type := ttype, description := description, created_at := now }
  ({ st with coin_transactions := st.coin_transactions ++ [t],
             next_coin_transaction_id := st.next_coin_transaction_id + 1 }, t)

/-! ## Clash renderer (`clash.rs`) -/

/-- Reality options of a VLESS proxy (`clash.rs RealityOpts`). -/
structure RealityOpts where
  public_key : String
  short_id : String
deriving DecidableEq, Repr

/-- The five Clash proxy variants (`clash.rs ClashProxy`). -/
inductive ClashProxy where
  | ss (name server : String) (port : Int) (cipher password : String) (udp : Bool)
  | vmess (name server : String) (port : Int) (uuid : String) (alter_id : Int)
      (cipher : String) (udp : Bool) (network : String)
  | trojan (name server : String) (port : Int) (password : String) (udp : Bool)
      (sni : Option String) (skip_cert_verify : Bool)
  | hysteria2 (name server : String) (port : Int) (password : String)
      (obfs obfs_password sni : Option String) (skip_cert_verify : Bool)
  | vless (name server : String) (port : Int) (uuid : String) (flow : Option String)
      (network : String) (reality_opts : Option RealityOpts)
      (client_fingerprint : Option String)
deriving DecidableEq, Repr

/-- `clash.rs get_proxy_name`. -/
def getProxyName : ClashProxy → String
  | .ss name .. => name
  | .vmess name .. => name
  | .trojan name .. => name
  | .hysteria2 name .. => name
  | .vless name .. => name

/-- Credential of a rendered proxy in its protocol-specific slot (the
`uuid` field of vmess/vless, the `password` field of the other three). -/
def proxyCredential : ClashProxy → String
  | .ss _ _ _ _ password _ => password
  | .vmess _ _ _ uuid _ _ _ _ => uuid
  | .trojan _ _ _ password _ _ _ => password
  | .hysteria2 _ _ _ password _ _ _ _ => password
  | .vless _ _ _ uuid _ _ _ _ => uuid

/-- `clash.rs map_node_protocol_to_clash` (a Rust `match` on the protocol). -/
def mapNodeProtocolToClash : String → Option String
  | "shadowsocks" => some "ss"
  | "vmess" => some "vmess"
  | "trojan" => some "trojan"
  | "hysteria2" => some "hysteria2"
  | "vless" => some "vless"
  | _ => none

/-- The `if config.get(key) is none, set it` step repeated per protocol arm
of `merge_node_config`. -/
def setIfAbsent (cfg : Json) (key : String) (v : Json) : Json :=
  if (jget cfg key).isSome then cfg else jsetNew cfg key v

/-- `clash.rs merge_node_config` (a Rust `match` on the protocol): writes
`node.secret` into the protocol-specific credential slot unless
`node.config` already has that key. -/
def mergeNodeConfig (node : Node) : Json :=
  match node.protocol with
  | "shadowsocks" => setIfAbsent node.config "password" (.str node.secret)
  | "vmess" => setIfAbsent node.config "uuid" (.str node.secret)
  | "trojan" => setIfAbsent node.config "password" (.str node.secret)
  | "hysteria2" => setIfAbsent node.config "password" (.str node.secret)
  | "vless" => setIfAbsent node.config "uuid" (.str node.secret)
  | _ => node.config

/-- `clash.rs generate_shadowsocks_proxy` (`Result` errors collapsed to `none`,
matching the `.ok()` conversion at the only call site of the claims). -/
def generateShadowsocksProxy (node : Node) : Option ClashProxy :=
  match (jget node.config "method").bind asStr with
  | none => none
  | some cipher =>
    match (jget node.config "password").bind asStr with
    | none => none
    | some password =>
      some (.ss node.name node.host (toU16 node.port) cipher password true)

/-- `clash.rs generate_vmess_proxy`. -/
def generateVmessProxy (node : Node) : Option ClashProxy :=
  match (jget node.config "uuid").bind asStr with
  | none => none
  | some uuid =>
    let alter_id := toU16 (((jget node.config "alter_id").bind asU64).getD 0)
    let security := ((jget node.config "security").bind asStr).getD "auto"
    let network := ((jget node.config "network").bind asStr).getD "tcp"
    some (.vmess node.name node.host (toU16 node.port) uuid alter_id security true network)

/-- `clash.rs generate_trojan_proxy`. -/
def generateTrojanProxy (node : Node) : Option ClashProxy :=
  match (jget node.config "password").bind asStr with
  | none => none
  | some password =>
    let sni := (jget node.config "sni").bind asStr
    let scv := ((jget node.config "skip_cert_verify").bind asBool).getD false
    some (.trojan node.name node.host (toU16 node.port) password true sni scv)

/-- `clash.rs generate_hysteria2_proxy`. -/
def generateHysteria2Proxy (node : Node) : Option ClashProxy :=
  match (jget node.config "password").bind asStr with
  | none => none
  | some password =>
    let obfs := (jget node.config "obfs").bind asStr
    let obfs_password := (jget node.config "obfs_password").bind asStr
    let sni := (jget node.config "sni").bind asStr
    let scv := ((jget node.config "skip_cert_verify").bind asBool).getD false
    some (.hysteria2 node.name node.host (toU16 node.port) password obfs obfs_password sni scv)

/-- `clash.rs generate_vless_proxy`. -/
def generateVlessProxy (node : Node) : Option ClashProxy :=
  match (jget node.config "uuid").bind asStr with
  | none => none
  | some uuid =>
    let flow := (jget node.config "flow").bind asStr
    let network := ((jget node.config "network").bind asStr).getD "tcp"
    let fp := some ((((jget node.config "client_fingerprint").bind asStr)).getD "chrome")
    match jget node.config "reality" with
    | none =>
      some (.vless node.name node.host (toU16 node.port) uuid flow network none fp)
    | some reality =>
      match ((jget reality "publicKey").orElse (fun _ => jget reality "public_key")).bind asStr with
      | none => none
      | some public_key =>
        let short_id :=
          (((((jget reality "shortIds").orElse (fun _ => jget reality "short_ids")).bind
              asArr).bind List.head?).bind asStr).getD ""
        some (.vless node.name node.host (toU16 node.port) uuid flow network
          (some { public_key := public_key, short_id := short_id }) fp)

/-- `clash.rs node_to_clash_proxy`: protocol admission check, secret merge,
then the protocol-specific generator on the merged config. -/
def nodeToClashProxy (node : Node) : Option ClashProxy :=
  match mapNodeProtocolToClash node.protocol with
  | none => none
  | some _ =>
    let temp : Node := { node with config := mergeNodeConfig node }
    match node.protocol with
    | "shadowsocks" => generateShadowsocksProxy temp
    | "vmess" => generateVmessProxy temp
    | "trojan" => generateTrojanProxy temp
    | "hysteria2" => generateHysteria2Proxy temp
    | "vless" => generateVlessProxy temp
    | _ => none

/-- Clash proxy group (`clash.rs ProxyGroup`). -/
structure ProxyGroup where
  name : String
  group_type : String
  proxies : List String
deriving DecidableEq, Repr

/-- A rendered Clash document before YAML serialization
(`clash.rs ClashConfig`; serialization itself is out of scope, see spec §1). -/
structure ClashDoc where
  proxies : List ClashProxy
  proxy_groups : List ProxyGroup
  rules : List String
deriving DecidableEq, Repr

/-- `clash.rs generate_clash_config`, up to YAML serialization: renders the
given nodes, appends the two fixed groups and the default rule list. -/
def generateClashDoc (nodes : List Node) : ClashDoc :=
  let proxies := nodes.filterMap nodeToClashProxy
  let proxy_names := proxies.map getProxyName
  { proxies := proxies,
    proxy_groups :=
      [ { name := "Proxy", group_type := "select", proxies := proxy_names },
        { name := "Auto", group_type := "url-test", proxies := proxy_names } ],
    rules :=
      [ "DOMAIN-SUFFIX,google.com,Proxy", "DOMAIN-SUFFIX,youtube.com,Proxy",
        "DOMAIN-SUFFIX,facebook.com,Proxy", "DOMAIN-SUFFIX,twitter.com,Proxy",
        "GEOIP,CN,DIRECT", "MATCH,Proxy" ] }

/-- `clash.rs db_proxy_to_clash_proxy`. -/
def dbProxyToClashProxy (p : ClashProxyRow) : Except String ClashProxy :=
  if p.proxy_type == "ss" then
    match (jget p.config "cipher").bind asStr with
    | none => .error "Missing cipher in Shadowsocks config"
    | some cipher =>
      match (jget p.config "password").bind asStr with
      | none => .error "Missing password in Shadowsocks config"
      | some password =>
        .ok (.ss p.name p.server (toU16 p.port) cipher password
          (((jget p.config "udp").bind asBool).getD true))
  else if p.proxy_type == "vmess" then
    match (jget p.config "uuid").bind asStr with
    | none => .error "Missing uuid in VMess config"
    | some uuid =>
      .ok (.vmess p.name p.server (toU16 p.port) uuid
        (toU16 (((jget p.config "alterId").bind asU64).getD 0))
        (((jget p.config "cipher").bind asStr).getD "auto")
        (((jget p.config "udp").bind asBool).getD true)
        (((jget p.config "network").bind asStr).getD "tcp"))
  else if p.proxy_type == "trojan" then
    match (jget p.config "password").bind asStr with
    | none => .error "Missing password in Trojan config"
    | some password =>
      .ok (.trojan p.name p.server (toU16 p.port) password
        (((jget p.config "udp").bind asBool).getD true)
        ((jget p.config "sni").bind asStr)
        (((jget p.config "skip-cert-verify").bind asBool).getD false))
  else if p.proxy_type == "hysteria2" then
    match (jget p.config "password").bind asStr with
    | none => .error "Missing password in Hysteria2 config"
    | some password =>
      .ok (.hysteria2 p.name p.server (toU16 p.port) password
        ((jget p.config "obfs").bind asStr)
        ((jget p.config "obfs-password").bind asStr)
        ((jget p.config "sni").bind asStr)
        (((jget p.config "skip-cert-verify").bind asBool).getD false))
  else if p.proxy_type == "vless" then
    match (jget p.config "uuid").bind asStr with
    | none => .error "Missing uuid in VLESS config"
    | some uuid =>
      let flow := (jget p.config "flow").bind asStr
      let network := (((jget p.config "network").bind asStr)).getD "tcp"
      let fp := some ((((jget p.config "client-fingerprint").bind asStr)).getD "chrome")
      match jget p.config "reality-opts" with
      | none => .ok (.vless p.name p.server (toU16 p.port) uuid flow network none fp)
      | some reality =>
        match (jget reality "public-key").bind asStr with
        | none => .error "Missing public-key in Reality config"
        | some public_key =>
          let short_id := (((jget reality "short-id").bind asStr)).getD ""
          .ok (.vless p.name p.server (toU16 p.port) uuid flow network
            (some { public_key := public_key, short_id := short_id }) fp)
  else .error ("Unsupported proxy type: " ++ p.proxy_type)

/-- Rule rendering inside `clash.rs generate_clash_config_from_db`. -/
def clashRuleString (r : ClashRuleRow) : String :=
  r.rule_type
    ++ (match r.rule_value with | some v => "," ++ v | none => "")
    ++ "," ++ r.proxy_group
    ++ (if r.no_resolve then ",no-resolve" else "")

/-- `clash.rs generate_clash_config_from_db`, up to YAML serialization. -/
def generateClashDocFromDb (ps : List ClashProxyRow) (gs : List ClashProxyGroupRow)
    (rs : List ClashRuleRow) : Except String ClashDoc :=
  match ps.mapM dbProxyToClashProxy with
  | .error e => .error e
  | .ok proxies =>
    .ok { proxies := proxies,
          proxy_groups := gs.map (fun g =>
            { name := g.name, group_type := g.group_type, proxies := g.proxies }),
          rules := rs.map clashRuleString }

/-! ## Node list queries (`db.rs`) -/

/-- Stable insertion of one element into a list sorted by `le`. -/
def insertSorted (le : α → α → Bool) (a : α) : List α → List α
  | [] => [a]
  | b :: rest => if le a b then a :: b :: rest else b :: insertSorted le a rest

/-- Stable sort by `le` (models a SQL `ORDER BY` with a deterministic tie-break). -/
def sortByB (le : α → α → Bool) (l : List α) : List α :=
  l.foldr (insertSorted le) []

/-- `db.rs list_nodes_by_status`: `WHERE status = $1 ORDER BY created_at DESC`. -/
def listNodesByStatus (st : DBState) (status : String) : List Node :=
  sortByB (fun a b => b.created_at ≤ a.created_at)
    (st.nodes.filter (fun n => n.status == status))

/-- `db.rs list_clash_nodes`:
`WHERE include_in_clash = true ORDER BY sort_order ASC, name ASC`. -/
def listClashNodes (st : DBState) : List Node :=
  sortByB (fun a b =>
      a.sort_order < b.sort_order || (a.sort_order == b.sort_order && a.name ≤ b.name))
    (st.nodes.filter (fun n => n.include_in_clash))

/-- `db.rs list_clash_proxies` with `active_only = true`:
`WHERE is_active = true ORDER BY sort_order, id`. -/
def listClashProxies (st : DBState) : List ClashProxyRow :=
  sortByB (fun a b => a.sort_order < b.sort_order || (a.sort_order == b.sort_order && a.id ≤ b.id))
    (st.clash_proxies.filter (fun p => p.is_active))

/-- `db.rs list_clash_proxy_groups` with `active_only = true`. -/
def listClashProxyGroups (st : DBState) : List ClashProxyGroupRow :=
  sortByB (fun a b => a.sort_order < b.sort_order || (a.sort_order == b.sort_order && a.id ≤ b.id))
    (st.clash_proxy_groups.filter (fun g => g.is_active))

/-- `db.rs list_clash_rules` with `active_only = true`. -/
def listClashRules (st : DBState) : List ClashRuleRow :=
  sortByB (fun a b => a.sort_order < b.sort_order || (a.sort_order == b.sort_order && a.id ≤ b.id))
    (st.clash_rules.filter (fun r => r.is_active))

/-! ## Subscription materializer (`handlers.rs get_subscription_config_handler`) -/

/-- `traffic.rs check_traffic_quota`: the user has traffic iff
`traffic_used < traffic_quota`; an unknown user is denied. -/
def checkTrafficQuota (st : DBState) (uid : Int) : Bool :=
  match findUser st uid with
  | some u => u.traffic_used < u.traffic_quota
  | none => false

/-- The handler query for the current entitlement:
`WHERE user_id = $1 AND status = 'active' AND expires_at > NOW()
ORDER BY expires_at DESC LIMIT 1`. -/
def currentUserPackage (st : DBState) (uid : Int) (now : Int) : Option UserPackage :=
  (sortByB (fun a b => b.expires_at ≤ a.expires_at)
    (st.user_packages.filter
      (fun up => up.user_id == uid && up.status == "active" && now < up.expires_at))).head?

/-- The empty-config sentinel body. -/
def emptyConfigSentinel : String := "proxies: []\nproxy-groups: []\nrules: []\n"

/-- Response body of the subscription endpoint: either a raw text body
(the sentinel, or a cached document) or a freshly rendered Clash document
(serialized to YAML by the source, see spec §1). -/
inductive SubBody where
  | text (s : String)
  | yamlDoc (d : ClashDoc)
deriving DecidableEq, Repr

/-- Outcome of one subscription fetch: the HTTP result and the status string
of the access-log record enqueued by `log_access_async` (if any). -/
structure SubOut where
  res : Except ApiErr (String × SubBody)
  log : Option String

/-- HTTP status of a subscription fetch (`Ok` responses are always 200). -/
def subStatus (o : SubOut) : Nat :=
  match o.res with
  | .ok _ => 200
  | .error e => apiStatus e

/-- `handlers.rs get_subscription_config_handler`.  `cached` is the value of
the cache key `subscription:{token}` (the cache-hit path serves it without
re-authorization); the rest is the cache-miss path against the store. -/
def subscriptionHandler (st : DBState) (cached : Option String) (token : String)
    (now : Int) : SubOut :=
  match cached with
  | some body =>
    { res := .ok ("text/yaml; charset=utf-8", .text body),
      log := if (findSubByToken st token).isSome then some "success" else none }
  | none =>
    match findSubByToken st token with
    | none => { res := .error (.notFound "Subscription not found"), log := none }
    | some sub =>
      match findUser st sub.user_id with
      | none => { res := .error (.notFound "User not found"), log := some "failed" }
      | some user =>
        if user.status == "disabled" then
          { res := .error (.unauthorized "Account is disabled"), log := some "disabled" }
        else if !(checkTrafficQuota st user.id) then
          { res := .ok ("text/yaml; charset=utf-8", .text emptyConfigSentinel),
            log := some "quota_exceeded" }
        else
          match currentUserPackage st user.id now with
          | none =>
            { res := .ok ("text/yaml; charset=utf-8", .text emptyConfigSentinel),
              log := some "expired" }
          | some up =>
            if up.traffic_quota ≤ up.traffic_used then
              { res := .ok ("text/yaml; charset=utf-8", .text emptyConfigSentinel),
                log := some "quota_exceeded" }
            else
              let nodes := listNodesByStatus st "online"
              let p := listClashProxies st
              let pg := listClashProxyGroups st
              let r := listClashRules st
              let doc : Except String ClashDoc :=
                if !p.isEmpty && !pg.isEmpty && !r.isEmpty then
                  generateClashDocFromDb p pg r
                else
                  .ok (generateClashDoc nodes)
              match doc with
              | .error e =>
                { res := .error (.internal ("Failed to generate config: " ++ e)),
                  log := none }
              | .ok d =>
                { res := .ok ("text/yaml; charset=utf-8", .yamlDoc d),
                  log := some "success" }

/-! ## Coin balance operations (`handlers.rs add_coins` / `deduct_coins`) -/

/-- `handlers.rs add_coins`. -/
def addCoins (st : DBState) (uid amount : Int) (description : Option String)
    (now : Int) : Except ApiErr (DBState × User × CoinTransaction) :=
  if amount ≤ 0 then .error (.badRequest "Amount must be positive")
  else
    match findUser st uid with
    | none => .error (.internal "Database error occurred")
    | some user =>
      let new_balance := user.coin_balance + amount
      let st1 := setUserBalance st uid new_balance now
      let updated_user : User := { user with coin_balance := new_balance, updated_at := now }
      let (st2, t) := insertCoinTransaction st1 uid amount "recharge" description now
      .ok (st2, updated_user, t)

/-- `handlers.rs deduct_coins`. -/
def deductCoins (st : DBState) (uid amount : Int) (description : Option String)
    (now : Int) : Except ApiErr (DBState × User × CoinTransaction) :=
  if amount ≤ 0 then .error (.badRequest "Amount must be positive")
  else
    match findUser st uid with
    | none => .error (.internal "Database error occurred")
    | some user =>
      if user.coin_balance < amount then .error (.badRequest "Insufficient balance")
      else
        let new_balance := user.coin_balance - amount
        let st1 := setUserBalance st uid new_balance now
        let updated_user : User := { user with coin_balance := new_balance, updated_at := now }
        let (st2, t) := insertCoinTransaction st1 uid (-amount) "purchase" description now
        .ok (st2, updated_user, t)

/-! ## Referral rebate (`db.rs process_referral_rebate`) -/

/-- `SELECT COUNT(*) FROM orders WHERE user_id = $1 AND status = 'completed'`. -/
def completedOrderCount (st : DBState) (uid : Int) : Nat :=
  st.orders.countP (fun o => o.user_id == uid && o.status == "completed")

/-- `db.rs process_referral_rebate` at the default rate 0.10.  The Rust
rebate amount is `(purchase_amount as f64 * 0.10) as i64`; for the i64
prices representable exactly in `f64` this is truncation of
`purchase_amount / 10`, modelled with `Int.tdiv` (truncation toward zero).
Database errors are impossible in the pure model, and at the only call site
an `Err` is treated exactly like `Ok(None)`, so the result is
`DBState × Option User`. -/
def processReferralRebate (st : DBState) (uid purchase_amount : Int)
    (now : Int) : DBState × Option User :=
  match findUser st uid with
  | none => (st, none)
  | some user =>
    match user.referred_by with
    | none => (st, none)
    | some referrer_id =>
      if referrer_id == uid then (st, none)
      else if completedOrderCount st uid > 0 then (st, none)
      else
        let rebate_amount := Int.tdiv purchase_amount 10
        if rebate_amount ≤ 0 then (st, none)
        else
          match findUser st referrer_id with
          | none => (st, none)
          | some referrer =>
            let new_balance := referrer.coin_balance + rebate_amount
            let st1 := setUserBalance st referrer_id new_balance now
            let updated_referrer : User :=
              { referrer with coin_balance := new_balance, updated_at := now }
            let d := "Referral rebate from user " ++ toString uid
            let (st2, _) := insertCoinTransaction st1 referrer_id rebate_amount "referral" (some d) now
            (st2, some updated_referrer)

/-! ## Purchase transactor (`handlers.rs purchase_package_handler`) -/

/-- The JSON body returned by a successful purchase. -/
structure PurchaseResult where
  order_id : Int
  order_no : String
  package_name : String
  traffic_added : Int
  new_balance : Int
  new_traffic_quota : Int
  expires_at : Int
deriving DecidableEq, Repr

/-- Milliseconds in one day, for `chrono::Duration::days`. -/
def dayMs : Int := 86400000

/-- `handlers.rs purchase_package_handler`, after token verification: the
purchase transaction (package check, row-locked balance check, order, coin
deduction, transaction record, quota credit, user-package insert, order
completion) followed by the post-commit referral-rebate call whose errors
do not affect the purchase.  `now` stands for the transaction timestamp, in
milliseconds. -/
def purchasePackageHandler (st : DBState) (now uid pid : Int) :
    Except ApiErr (DBState × PurchaseResult) :=
  match findPackage st pid with
  | none => .error (.notFound "Package not found")
  | some package =>
    if !package.is_active then .error (.badRequest "Package is not available")
    else
      match findUser st uid with
      | none => .error (.notFound "User not found")
      | some user =>
        if user.status == "disabled" then .error (.unauthorized "Account is disabled")
        else if user.coin_balance < package.price then
          .error (.badRequest "Insufficient balance")
        else
          let order_no := "ORD-" ++ toString uid ++ "-" ++ toString now
          let order : Order :=
            { id := st.next_order_id, order_no := order_no, user_id := uid,
              package_id := pid, amount := package.price, status := "pending",
              created_at := now, completed_at := none }
          let st1 := { st with orders := st.orders ++ [order],
                               next_order_id := st.next_order_id + 1 }
          let new_balance := user.coin_balance - package.price
          let st2 := setUserBalance st1 uid new_balance now
          let n := package.name
          let (st3, _) := insertCoinTransaction st2 uid (-package.price) "purchase"
            (some ("Purchase package: " ++ n)) now
          let new_traffic_quota := user.traffic_quota + package.traffic_amount
          let st4 := setUserTrafficQuota st3 uid new_traffic_quota now
          let expires_at := now + package.duration_days * dayMs
          let up : UserPackage :=
            { id := st4.next_user_package_id, user_id := uid, package_id := pid,
              order_id := order.id, traffic_quota := package.traffic_amount,
              traffic_used := 0, expires_at := expires_at, status := "active" }
          let st5 := { st4 with user_packages := st4.user_packages ++ [up],
                                next_user_package_id := st4.next_user_package_id + 1 }
          let st6 := { st5 with orders := st5.orders.map (fun o =>
              if o.id == order.id then
                { o with status := "completed", completed_at := some now }
              else o) }
          let st7 := (processReferralRebate st6 uid package.price now).1
          .ok (st7,
            { order_id := order.id, order_no := order_no, package_name := package.name,
              traffic_added := package.traffic_amount, new_balance := new_balance,
              new_traffic_quota := new_traffic_quota, expires_at := expires_at })

/-! ## Traffic aggregator (`traffic.rs`) -/

/-- `traffic.rs TrafficReport`. -/
structure TrafficReport where
  node_id : Int
  user_id : Int
  upload : Int
  download : Int
  timestamp : Int
deriving DecidableEq, Repr

/-- One entry of the in-memory `HashMap<i64, (i64, i64)>` keyed by user id. -/
structure AggEntry where
  user : Int
  up : Int
  down : Int
deriving DecidableEq, Repr

/-- One step of `aggregate_traffic`:
`entry(user_id).or_insert((0,0)); .0 += upload; .1 += download`. -/
def aggStep (m : List AggEntry) (r : TrafficReport) : List AggEntry :=
  if m.any (fun e => e.user == r.user_id) then
    m.map (fun e =>
      if e.user == r.user_id then
        { e with up := e.up + r.upload, down := e.down + r.download }
      else e)
  else m ++ [{ user := r.user_id, up := r.upload, down := r.download }]

/-- `traffic.rs TrafficProcessor::aggregate_traffic`. -/
def aggregateTraffic (reports : List TrafficReport) : List AggEntry :=
  reports.foldl aggStep []

/-- Map lookup on the aggregation result. -/
def aggLookup (m : List AggEntry) (u : Int) : Option (Int × Int) :=
  (m.find? (fun e => e.user == u)).map (fun e => (e.up, e.down))

/-- One `UPDATE users SET traffic_used = traffic_used + $2` of the batch
update loop; `failU` marks the users whose UPDATE fails (the failure is
logged and the loop continues). -/
def applyAggEntry (users : List User) (failU : Int → Bool) (now : Int)
    (e : AggEntry) : List User :=
  if failU e.user then users
  else users.map (fun u =>
    if u.id == e.user then
      { u with traffic_used := u.traffic_used + (e.up + e.down), updated_at := now }
    else u)

/-- `traffic.rs TrafficProcessor::update_user_traffic_batch` (always returns
`Ok`, also when some per-user UPDATE failed). -/
def updateUserTrafficBatch (entries : List AggEntry) (failU : Int → Bool)
    (now : Int) (users : List User) : List User :=
  match entries with
  | [] => users
  | e :: es => updateUserTrafficBatch es failU now (applyAggEntry users failU now e)

/-- A value of one field of a stream entry (`redis::Value`). -/
inductive RVal where
  | data (s : String)
  | vint (i : Int)
  | other
deriving DecidableEq, Repr

/-- Generic field lookup in a stream-entry map. -/
def lookupField : List (String × α) → String → Option α
  | [], _ => none
  | (k, v) :: rest, key => if k == key then some v else lookupField rest key

/-- Digit run of a decimal literal: at least one digit, all digits. -/
def natDigits (cs : List Char) : Option Nat :=
  if cs.isEmpty then none
  else if cs.all Char.isDigit then
    some (cs.foldl (fun acc c => acc * 10 + (c.toNat - 48)) 0)
  else none

/-- Model of Rust `str::parse::<i64>`: optional sign followed by at least
one digit (the i64 range check is dropped; no claim depends on overflow). -/
def parseI64 (s : String) : Option Int :=
  match s.toList with
  | [] => none
  | c :: rest =>
    if c == '+' then (natDigits rest).map (fun n => (n : Int))
    else if c == '-' then (natDigits rest).map (fun n => -(n : Int))
    else (natDigits (c :: rest)).map (fun n => (n : Int))

/-- `traffic.rs TrafficProcessor::get_i64_field`: the field must exist and be
either a decimal string or an integer value. -/
def getI64Field (fields : List (String × RVal)) (name : String) : Option Int :=
  match lookupField fields name with
  | none => none
  | some (.data s) => parseI64 s
  | some (.vint i) => some i
  | some .other => none

/-- `traffic.rs TrafficProcessor::parse_traffic_report`. -/
def parseTrafficReport (fields : List (String × RVal)) : Option TrafficReport :=
  match getI64Field fields "node_id" with
  | none => none
  | some node_id =>
  match getI64Field fields "user_id" with
  | none => none
  | some user_id =>
  match getI64Field fields "upload" with
  | none => none
  | some upload =>
  match getI64Field fields "download" with
  | none => none
  | some download =>
  match getI64Field fields "timestamp" with
  | none => none
  | some timestamp =>
    some { node_id := node_id, user_id := user_id, upload := upload,
           download := download, timestamp := timestamp }

/-- One entry read from the stream: a message id and its field map. -/
structure StreamMsg where
  id : String
  fields : List (String × RVal)

/-- Result of one successful `process_batch` call: the user rows after the
update pass, the acknowledged message ids, and the processed-report count. -/
structure BatchOutcome where
  users : List User
  acked : List String
  processed : Nat

/-- The parse loop of `process_batch`: the `?` on `parse_traffic_report`
aborts the whole call at the first malformed tuple. -/
def parseAll : List StreamMsg → Option (List TrafficReport)
  | [] => some []
  | m :: rest =>
    match parseTrafficReport m.fields with
    | none => none
    | some r =>
      match parseAll rest with
      | none => none
      | some rs => some (r :: rs)

/-- `traffic.rs TrafficProcessor::process_batch`: parse every entry of the
batch (a parse failure aborts the call with an error before any update or
acknowledgment), aggregate per user, apply the per-user updates (individual
failures, given by `failU`, are logged and skipped), then acknowledge every
message id of the batch. -/
def processBatch (msgs : List StreamMsg) (failU : Int → Bool) (now : Int)
    (users : List User) : Option BatchOutcome :=
  if msgs.isEmpty then some { users := users, acked := [], processed := 0 }
  else
    match parseAll msgs with
    | none => none
    | some reports =>
      let aggregated := aggregateTraffic reports
      let users1 := updateUserTrafficBatch aggregated failU now users
      some { users := users1, acked := msgs.map (fun m => m.id),
             processed := reports.length }

/-! ## Client IP extraction (`handlers.rs extract_client_ip`) -/

/-- Splitter worker: accumulates the current piece (reversed) and emits a
piece at each separator. -/
def splitOnCharAux (sep : Char) : List Char → List Char → List String
  | [], acc => [String.mk acc.reverse]
  | c :: rest, acc =>
    if c == sep then String.mk acc.reverse :: splitOnCharAux sep rest []
    else splitOnCharAux sep rest (c :: acc)

/-- Model of Rust `str::split(sep)` for a one-character separator: always
yields at least one (possibly empty) piece. -/
def splitOnChar (sep : Char) (s : String) : List String :=
  splitOnCharAux sep s.toList []

/-- ASCII whitespace, the fragment of `char::is_whitespace` the sources meet. -/
def isWsChar (c : Char) : Bool :=
  c == ' ' || c == Char.ofNat 9 || c == Char.ofNat 10 || c == Char.ofNat 13

/-- Model of Rust `str::trim` (ASCII whitespace). -/
def trimS (s : String) : String :=
  String.mk (((s.toList.dropWhile isWsChar).reverse.dropWhile isWsChar).reverse)

/-- The two headers the extractor reads (values already decoded to strings;
a header whose value is not valid visible ASCII behaves like an absent one). -/
structure Headers where
  x_forwarded_for : Option String
  x_real_ip : Option String
deriving DecidableEq, Repr

/-- The `X-Real-IP` fallback branch of `extract_client_ip`. -/
def realIpFallback (h : Headers) : Option String :=
  match h.x_real_ip with
  | some s => if trimS s ≠ "" then some (trimS s) else none
  | none => none

/-- `handlers.rs extract_client_ip`: the first comma-separated entry of
`X-Forwarded-For` (`split(',').next()`), trimmed, when non-empty; else
trimmed `X-Real-IP` when non-empty; else `None`. -/
def extractClientIp (h : Headers) : Option String :=
  match h.x_forwarded_for with
  | some forwarded =>
    let trimmed := trimS ((splitOnChar ',' forwarded).headD "")
    if trimmed ≠ "" then some trimmed else realIpFallback h
  | none => realIpFallback h

/-- The ip value used by the subscription handler
(`extract_client_ip(...).unwrap_or("unknown")`). -/
def clientIp (h : Headers) : String :=
  (extractClientIp h).getD "unknown"

/-! ## Registration (`handlers.rs register_handler`, `utils.rs` validators) -/

/-- ASCII alphanumeric, the `[a-zA-Z0-9]` class of the email regex. -/
def isAlnumA (c : Char) : Bool := c.isAlpha || c.isDigit

/-- The special characters admitted in the local part of the email regex. -/
def isLocalSpecialChar (c : Char) : Bool :=
  c ∈ ['.', '!', '#', '$', '%', '&', Char.ofNat 39, '*', '+', '/', '=',
       Char.ofNat 63, '^', '_', Char.ofNat 96, Char.ofNat 123, '|',
       Char.ofNat 125, '~', '-']

/-- A character of the local part of an email address. -/
def isLocalChar (c : Char) : Bool := isAlnumA c || isLocalSpecialChar c

/-- A middle character of a domain label: `[a-zA-Z0-9-]`. -/
def isLabelInner (c : Char) : Bool := isAlnumA c || c == '-'

/-- One domain label of the email regex:
`[a-zA-Z0-9](?:[a-zA-Z0-9-]\x7b0,61\x7d[a-zA-Z0-9])?`. -/
def validDomainLabel (s : String) : Bool :=
  match s.toList with
  | [] => false
  | [c] => isAlnumA c
  | c :: rest =>
    isAlnumA c && s.toList.length ≤ 63 && rest.dropLast.all isLabelInner &&
    (match rest.getLast? with
     | some d => isAlnumA d
     | none => false)

/-- The anchored email regex of `utils.rs validate_email`: a non-empty local
part over the local character class, one `@`, and dot-separated domain
labels.  Neither character class contains `@`, so the regex matches exactly
when splitting on `@` yields one valid local part and one valid domain. -/
def validEmailFormat (email : String) : Bool :=
  match splitOnChar '@' email with
  | [localPart, domain] =>
    localPart.length > 0 && localPart.toList.all isLocalChar &&
    (splitOnChar '.' domain).all validDomainLabel
  | _ => false

/-- `utils.rs validate_email`. -/
def validateEmail (email : String) : Except String Unit :=
  if !validEmailFormat email then .error "Invalid email format"
  else if email.length > 255 then .error "Email is too long (max 255 characters)"
  else .ok ()

/-- `utils.rs validate_password`. -/
def validatePassword (password : String) : Except String Unit :=
  if password.length < 8 then .error "Password must be at least 8 characters long"
  else if password.length > 128 then .error "Password is too long (max 128 characters)"
  else
    let has_letter := password.toList.any (fun c => c.isAlpha)
    let has_number := password.toList.any (fun c => c.isDigit)
    if !has_letter || !has_number then .error "Password must contain both letters and numbers"
    else .ok ()

/-- Tail of `register_handler` after the referral resolution: the referral
code uniqueness retry loop over the `generate_referral_code` stream
(`candidate_codes`; the source loops until a free code appears, a model run
that exhausts the list reports an internal error) and the `create_user`
insert with its column defaults. -/
def registerCreate (st : DBState) (email password_hash : String) (rb : Option Int)
    (candidate_codes : List String) (now : Int) : Except ApiErr (DBState × User) :=
  match candidate_codes.find? (fun c => (findUserByReferralCode st c).isNone) with
  | none => .error (.internal "referral code generation did not terminate")
  | some fresh_code =>
    let user : User :=
      { id := st.next_user_id, email := email, password_hash := password_hash,
        coin_balance := 0, traffic_quota := 0, traffic_used := 0,
        referral_code := some fresh_code, referred_by := rb, status := "active",
        is_admin := false, created_at := now, updated_at := now }
    .ok ({ st with users := st.users ++ [user],
                   next_user_id := st.next_user_id + 1 }, user)

/-- `handlers.rs register_handler`.  `hashF` stands for the bcrypt
`hash_password` primitive (out of scope, spec §1). -/
def registerHandler (st : DBState) (email password : String)
    (referral_code : Option String) (candidate_codes : List String)
    (hashF : String → String) (now : Int) : Except ApiErr (DBState × User) :=
  match validateEmail email with
  | .error e => .error (.badRequest e)
  | .ok _ =>
  match validatePassword password with
  | .error e => .error (.badRequest e)
  | .ok _ =>
  if (findUserByEmail st email).isSome then .error (.conflict "Email already exists")
  else
    match referral_code with
    | some code =>
      match findUserByReferralCode st code with
      | some referrer =>
        registerCreate st email (hashF password) (some referrer.id) candidate_codes now
      | none => .error (.badRequest "Invalid referral code")
    | none => registerCreate st email (hashF password) none candidate_codes now

/-! ## Balance operation sequences (for the global balance invariant) -/

/-- One balance-mutating operation of the API surface. -/
inductive BalanceOp where
  | recharge (uid amount : Int) (description : Option String) (now : Int)
  | deduct (uid amount : Int) (description : Option String) (now : Int)
  | purchase (uid pid now : Int)

/-- Apply one operation; a rejected operation leaves the store unchanged
(the SQL transaction rolls back). -/
def stepOp (st : DBState) : BalanceOp → DBState
  | .recharge uid a d now =>
    match addCoins st uid a d now with
    | .ok (st1, _, _) => st1
    | .error _ => st
  | .deduct uid a d now =>
    match deductCoins st uid a d now with
    | .ok (st1, _, _) => st1
    | .error _ => st
  | .purchase uid pid now =>
    match purchasePackageHandler st now uid pid with
    | .ok (st1, _) => st1
    | .error _ => st

/-- Apply a sequence of balance operations. -/
def applyOps (st : DBState) (ops : List BalanceOp) : DBState :=
  ops.foldl stepOp st

/-- Every user row has a nonnegative coin balance. -/
def balancesNonneg (st : DBState) : Prop :=
  ∀ u ∈ st.users, 0 ≤ u.coin_balance

/-! ## Claim-side definitions (written from the spec or claim wording, for
refinement comparisons) -/

/-- Modelled from the claim wording of C9: the first non-empty entry of
`X-Forwarded-For` after splitting on commas and trimming whitespace. -/
def claimFirstNonEmptyXffEntry (s : String) : Option String :=
  ((splitOnChar ',' s).map trimS).find? (fun t => t != "")

/-- Modelled from the claim wording of C9: first non-empty XFF entry, else
trimmed `X-Real-IP`, else `"unknown"`. -/
def claimClientIp (h : Headers) : String :=
  match h.x_forwarded_for.bind claimFirstNonEmptyXffEntry with
  | some ip => ip
  | none =>
    match h.x_real_ip with
    | some s => if trimS s != "" then trimS s else "unknown"
    | none => "unknown"

/-- The `X-Real-IP` step shared by the amended wording of C9. -/
def amendedRealIp (h : Headers) : String :=
  match h.x_real_ip with
  | some s => if trimS s ≠ "" then trimS s else "unknown"
  | none => "unknown"

/-- Modelled from the amended wording of C9: only the FIRST comma-separated
entry of `X-Forwarded-For` is considered; when it trims to empty the
extractor falls back to `X-Real-IP` and then to `"unknown"`. -/
def amendedClientIp (h : Headers) : String :=
  match h.x_forwarded_for with
  | some s =>
    if trimS ((splitOnChar ',' s).headD "") ≠ "" then trimS ((splitOnChar ',' s).headD "")
    else amendedRealIp h
  | none => amendedRealIp h

/-- Header fixture: the first `X-Forwarded-For` entry is blank, the second
holds an address, and there is no `X-Real-IP`. -/
def headersEx9 : Headers := { x_forwarded_for := some " ,1.2.3.4", x_real_ip := none }

/-- The credential slot each protocol merges the node secret into
(`password` for shadowsocks/trojan/hysteria2, `uuid` for vmess/vless). -/
def credentialSlot : String → Option String
  | "shadowsocks" => some "password"
  | "trojan" => some "password"
  | "hysteria2" => some "password"
  | "vmess" => some "uuid"
  | "vless" => some "uuid"
  | _ => none

/-- Vless node fixture whose config does not supply a uuid. -/
def vlessNodeEx : Node :=
  { id := 1, name := "n1", host := "example.com", port := 443, protocol := "vless",
    secret := "sek", config := .obj [("network", .str "tcp")], status := "online",
    max_users := 100, current_users := 0, include_in_clash := true, sort_order := 0,
    created_at := 0 }

/-- First-match-only variant of `aggStep`; agrees with `aggStep` on maps
with pairwise-distinct keys (every map the fold ever builds), and is the
induction-friendly form used in the proofs. -/
def aggStepRec : List AggEntry → TrafficReport → List AggEntry
  | [], r => [{ user := r.user_id, up := r.upload, down := r.download }]
  | e :: es, r =>
    if e.user == r.user_id then
      { e with up := e.up + r.upload, down := e.down + r.download } :: es
    else e :: aggStepRec es r

/-- The keys of an aggregation map are pairwise distinct. -/
def aggKeysNodup (m : List AggEntry) : Prop :=
  (m.map (fun e => e.user)).Nodup

/-- Sum of the uploads of one user's reports. -/
def sumUpFor (reports : List TrafficReport) (u : Int) : Int :=
  ((reports.filter (fun r => r.user_id == u)).map (fun r => r.upload)).sum

/-- Sum of the downloads of one user's reports. -/
def sumDownFor (reports : List TrafficReport) (u : Int) : Int :=
  ((reports.filter (fun r => r.user_id == u)).map (fun r => r.download)).sum

/-- Sum of `upload + download` over one user's reports. -/
def sumTotalFor (reports : List TrafficReport) (u : Int) : Int :=
  ((reports.filter (fun r => r.user_id == u)).map (fun r => r.upload + r.download)).sum

/-- Sum of `up + down` over one user's entries of an aggregation map. -/
def entriesSum (m : List AggEntry) (u : Int) : Int :=
  ((m.filter (fun e => e.user == u)).map (fun e => e.up + e.down)).sum

/-- The three traffic reports of the `test_aggregate_traffic` unit test. -/
def reportsEx : List TrafficReport :=
  [ { node_id := 1, user_id := 100, upload := 1000, download := 2000, timestamp := 1234567890 },
    { node_id := 1, user_id := 100, upload := 500, download := 1500, timestamp := 1234567891 },
    { node_id := 2, user_id := 200, upload := 3000, download := 4000, timestamp := 1234567892 } ]

/-- A user row fixture for the traffic-update witnesses. -/
def userTrafficEx : User :=
  { id := 100, email := "t@example.com", password_hash := "h", coin_balance := 0,
    traffic_quota := 10000, traffic_used := 7, referral_code := none,
    referred_by := none, status := "active", is_admin := false, created_at := 0,
    updated_at := 0 }

/-- A well-formed stream message for user 7. -/
def goodMsgEx : StreamMsg :=
  { id := "1-1",
    fields := [("node_id", .vint 1), ("user_id", .vint 7), ("upload", .data "5"),
               ("download", .vint 3), ("timestamp", .vint 100)] }

/-- A stream message whose `upload` field fails the i64 parse. -/
def badMsgEx : StreamMsg :=
  { id := "1-2",
    fields := [("node_id", .vint 1), ("user_id", .vint 7), ("upload", .data "oops"),
               ("download", .vint 3), ("timestamp", .vint 100)] }

/-- User row fixture matching `goodMsgEx`. -/
def userSevenEx : User :=
  { id := 7, email := "u7@example.com", password_hash := "h", coin_balance := 0,
    traffic_quota := 1000, traffic_used := 40, referral_code := none,
    referred_by := none, status := "active", is_admin := false, created_at := 0,
    updated_at := 0 }

/-- The empty store, base of the concrete fixtures. -/
def emptyDB : DBState :=
  { users := [], packages := [], orders := [], user_packages := [],
    coin_transactions := [], subscriptions := [], nodes := [], clash_proxies := [],
    clash_proxy_groups := [], clash_rules := [], next_user_id := 1,
    next_order_id := 1, next_user_package_id := 1, next_coin_transaction_id := 1 }

/-- A user over quota: `traffic_quota = traffic_used = 0`. -/
def userQuotaEx : User :=
  { id := 3, email := "q@example.com", password_hash := "h", coin_balance := 0,
    traffic_quota := 0, traffic_used := 0, referral_code := none, referred_by := none,
    status := "active", is_admin := false, created_at := 0, updated_at := 0 }

/-- A user with traffic left but no entitlement. -/
def userNoPkgEx : User :=
  { id := 4, email := "n@example.com", password_hash := "h", coin_balance := 0,
    traffic_quota := 100, traffic_used := 0, referral_code := none, referred_by := none,
    status := "active", is_admin := false, created_at := 0, updated_at := 0 }

/-- Subscription of `userQuotaEx`. -/
def subQuotaEx : Subscription :=
  { id := 1, user_id := 3, token := "tok6", created_at := 0, last_accessed := none }

/-- Subscription of `userNoPkgEx`. -/
def subNoPkgEx : Subscription :=
  { id := 2, user_id := 4, token := "tok7", created_at := 0, last_accessed := none }

/-- Store for the subscription sentinel witnesses. -/
def stSubEx : DBState :=
  { emptyDB with users := [userQuotaEx, userNoPkgEx],
                 subscriptions := [subQuotaEx, subNoPkgEx], next_user_id := 5 }

/-- The referrer of the purchase fixtures. -/
def userRefEx : User :=
  { id := 1, email := "r@example.com", password_hash := "h", coin_balance := 100,
    traffic_quota := 0, traffic_used := 0, referral_code := some "REF1",
    referred_by := none, status := "active", is_admin := false, created_at := 0,
    updated_at := 0 }

/-- A referred buyer with enough balance. -/
def userBuyerEx : User :=
  { id := 2, email := "b@example.com", password_hash := "h", coin_balance := 1000,
    traffic_quota := 0, traffic_used := 0, referral_code := some "REF2",
    referred_by := some 1, status := "active", is_admin := false, created_at := 0,
    updated_at := 0 }

/-- An active package fixture. -/
def packageEx : Package :=
  { id := 10, name := "Basic", traffic_amount := 1000, price := 500,
    duration_days := 30, description := none, is_active := true }

/-- Store for the purchase fixtures: a referrer, a referred buyer, a package. -/
def stPurchaseEx : DBState :=
  { emptyDB with users := [userRefEx, userBuyerEx], packages := [packageEx],
                 next_user_id := 3 }

/-- The hash primitive stand-in used by the registration witnesses. -/
def hashFEx : String → String := fun p => "hashed:" ++ p

/-- Store for the registration witnesses: one existing user owning referral
code `REF1`. -/
def stRegEx : DBState := { emptyDB with users := [userRefEx], next_user_id := 2 }

/-- The user row `registerHandler` creates in the registration witness. -/
def userRegNewEx : User :=
  { id := 2, email := "a@example.com", password_hash := hashFEx "Passw0rd",
    coin_balance := 0, traffic_quota := 0, traffic_used := 0,
    referral_code := some "NEW1", referred_by := some 1, status := "active",
    is_admin := false, created_at := 0, updated_at := 0 }

/-- An online shadowsocks node excluded from clash (`include_in_clash = false`). -/
def nodeNotInClashEx : Node :=
  { id := 1, name := "n1", host := "h1.example.com", port := 443,
    protocol := "shadowsocks", secret := "sek",
    config := .obj [("method", .str "aes-256-gcm")], status := "online",
    max_users := 100, current_users := 0, include_in_clash := false,
    sort_order := 0, created_at := 0 }

/-- Entitlement fixture for `userNoPkgEx` in the C4 store. -/
def upC4Ex : UserPackage :=
  { id := 1, user_id := 4, package_id := 10, order_id := 1, traffic_quota := 50,
    traffic_used := 0, expires_at := 2000, status := "active" }

/-- Store for the C4 failing input: a valid subscription of an entitled user
and one online node with `include_in_clash = false`. -/
def stC4Ex : DBState :=
  { emptyDB with users := [userNoPkgEx], subscriptions := [subNoPkgEx],
                 user_packages := [upC4Ex], nodes := [nodeNotInClashEx],
                 next_user_id := 5, next_user_package_id := 2 }

/-! ## Helper lemmas -/

theorem lookupJ_append (l1 l2 : List (String × Json)) (k : String) :
    lookupJ (l1 ++ l2) k =
      (match lookupJ l1 k with
       | some v => some v
       | none => lookupJ l2 k) := by
  induction l1 with
  | nil => simp [lookupJ]
  | cons hd tl ih =>
    obtain ⟨k1, v1⟩ := hd
    by_cases hk : k1 == k
    · simp [lookupJ, hk]
    · simp only [List.cons_append, lookupJ, hk]
      simpa using ih

theorem jget_jsetNew_absent {fields : List (String × Json)} {key : String} {v : Json}
    (h : lookupJ fields key = none) (k : String) :
    jget (jsetNew (Json.obj fields) key v) k =
      if k == key then some v else lookupJ fields k := by
  by_cases hk : k = key
  · subst hk
    simp [jsetNew, jget, lookupJ_append, h, lookupJ]
  · have hk2 : (key == k) = false := by
      simp only [beq_eq_false_iff_ne, ne_eq]
      exact fun hc => hk hc.symm
    have hk3 : (k == key) = false := by simp [hk]
    simp only [jsetNew, jget, lookupJ_append, hk3, if_neg, Bool.false_eq_true, if_false]
    cases hfk : lookupJ fields k <;> simp [lookupJ, hk2]

theorem setIfAbsent_obj_spec (fields : List (String × Json)) (key : String) (v : Json) :
    (jget (Json.obj fields) key ≠ none → setIfAbsent (Json.obj fields) key v = Json.obj fields) ∧
    (jget (Json.obj fields) key = none →
      jget (setIfAbsent (Json.obj fields) key v) key = some v ∧
      ∀ k, k ≠ key → jget (setIfAbsent (Json.obj fields) key v) k = jget (Json.obj fields) k) := by
  constructor
  · intro h
    simp [setIfAbsent, Option.isSome_iff_ne_none, h]
  · intro h
    have hlook : lookupJ fields key = none := h
    have hs : (jget (Json.obj fields) key).isSome = false := by simp [h]
    constructor
    · simp only [setIfAbsent, hs, Bool.false_eq_true, if_false]
      rw [jget_jsetNew_absent hlook key]
      simp
    · intro k hk
      simp only [setIfAbsent, hs, Bool.false_eq_true, if_false]
      rw [jget_jsetNew_absent hlook k]
      have : (k == key) = false := by simp [hk]
      simp [this, jget]

theorem mergeNodeConfig_eq (node : Node) (slot : String)
    (hslot : credentialSlot node.protocol = some slot) :
    mergeNodeConfig node = setIfAbsent node.config slot (.str node.secret) := by
  unfold credentialSlot at hslot
  split at hslot <;>
    rename_i heq <;>
    first
      | exact Option.noConfusion hslot
      | (cases hslot; unfold mergeNodeConfig; rw [heq]; rfl)

theorem nodeToClashProxy_vless (node : Node) (hv : node.protocol = "vless") :
    nodeToClashProxy node = generateVlessProxy { node with config := mergeNodeConfig node } := by
  unfold nodeToClashProxy
  rw [hv]
  rfl

theorem vless_uuid_is_secret (node : Node) (hv : node.protocol = "vless")
    (hmu : jget (mergeNodeConfig node) "uuid" = some (.str node.secret))
    (p : ClashProxy) (hp : nodeToClashProxy node = some p) :
    proxyCredential p = node.secret := by
  rw [nodeToClashProxy_vless node hv] at hp
  unfold generateVlessProxy at hp
  dsimp only at hp
  rw [hmu] at hp
  simp only [Option.some_bind, asStr] at hp
  split at hp
  · cases hp; rfl
  · split at hp
    · exact Option.noConfusion hp
    · cases hp; rfl

/-! ## Claim theorems -/

/-- C9 counterexample: with `X-Forwarded-For` equal to `" ,1.2.3.4"` and no
`X-Real-IP`, the code logs `"unknown"` while the claim's rule (first
NON-EMPTY comma entry) yields `"1.2.3.4"`. -/
theorem c9_counterexample_first_entry_blank :
    clientIp headersEx9 = "unknown" ∧ claimClientIp headersEx9 = "1.2.3.4" ∧
    clientIp headersEx9 ≠ claimClientIp headersEx9 := by
  refine ⟨by decide, by decide, by decide⟩

/-- C9 (amended): the client IP is the trimmed FIRST comma-separated entry
of `X-Forwarded-For` when that is non-empty; otherwise (also when the first
entry trims to empty) the trimmed `X-Real-IP` when non-empty; otherwise
`"unknown"`. -/
theorem c9_client_ip_first_entry_only (h : Headers) :
    clientIp h = amendedClientIp h := by
  obtain ⟨xff, xrip⟩ := h
  cases xff <;> cases xrip <;>
    simp only [clientIp, extractClientIp, realIpFallback, amendedClientIp, amendedRealIp] <;>
    first
      | rfl
      | (split_ifs <;> simp_all)

/-- C7: for each of the five admitted protocols, the merged configuration is
the node config itself when the config already supplies the protocol's
credential slot; otherwise it is the node config with the secret written
into that slot and every other key unchanged; and a vless node whose config
lacks a uuid renders (when it renders) a proxy whose uuid is the node
secret. -/
theorem c7_merge_secret_into_credential_slot (node : Node)
    (fields : List (String × Json)) (slot : String)
    (hcfg : node.config = .obj fields)
    (hslot : credentialSlot node.protocol = some slot) :
    (jget node.config slot ≠ none → mergeNodeConfig node = node.config) ∧
    (jget node.config slot = none →
      jget (mergeNodeConfig node) slot = some (.str node.secret) ∧
      ∀ k, k ≠ slot → jget (mergeNodeConfig node) k = jget node.config k) ∧
    (node.protocol = "vless" → jget node.config "uuid" = none →
      ∀ p, nodeToClashProxy node = some p → proxyCredential p = node.secret) := by
  have hmerge := mergeNodeConfig_eq node slot hslot
  obtain ⟨h1, h2⟩ := setIfAbsent_obj_spec fields slot (.str node.secret)
  refine ⟨?_, ?_, ?_⟩
  · intro hne
    rw [hmerge, hcfg]
    exact h1 (by rw [hcfg] at hne; exact hne)
  · intro hnone
    rw [hcfg] at hnone
    obtain ⟨h2a, h2b⟩ := h2 hnone
    constructor
    · rw [hmerge, hcfg]; exact h2a
    · intro k hk
      rw [hmerge, hcfg]
      exact h2b k hk
  · intro hv huuid p hp
    have hslot2 : slot = "uuid" := by
      rw [hv] at hslot
      exact (Option.some.injEq _ _).mp hslot.symm
    subst hslot2
    rw [hcfg] at huuid
    have hmu : jget (mergeNodeConfig node) "uuid" = some (.str node.secret) := by
      rw [hmerge, hcfg]
      exact (h2 huuid).1
    exact vless_uuid_is_secret node hv hmu p hp

/-- C7 witness: the vless fixture without a configured uuid gets its secret
as uuid, both in the merged config and in the rendered proxy. -/
theorem c7_witness_vless_secret :
    jget (mergeNodeConfig vlessNodeEx) "uuid" = some (Json.str "sek") ∧
    proxyCredential (ClashProxy.vless "n1" "example.com" 443 "sek" none "tcp" none
      (some "chrome")) = "sek" := by
  have h := c7_merge_secret_into_credential_slot vlessNodeEx
    [("network", Json.str "tcp")] "uuid" rfl rfl
  constructor
  · exact (h.2.1 rfl).1
  · exact h.2.2 rfl rfl _ rfl

/-! ## Aggregation lemmas -/

theorem map_aggUpdate_no_match (m : List AggEntry) (r : TrafficReport)
    (h : ∀ e ∈ m, (e.user == r.user_id) = false) :
    m.map (fun e => if e.user == r.user_id then
      { e with up := e.up + r.upload, down := e.down + r.download } else e) = m := by
  induction m with
  | nil => rfl
  | cons a tl ih =>
    have ha := h a (by simp)
    simp only [List.map_cons, ha, Bool.false_eq_true, if_false]
    rw [ih (fun e he => h e (List.mem_cons_of_mem a he))]

theorem aggStep_eq_rec (m : List AggEntry) (r : TrafficReport) (h : aggKeysNodup m) :
    aggStep m r = aggStepRec m r := by
  induction m with
  | nil => rfl
  | cons a tl ih =>
    unfold aggKeysNodup at h
    simp only [List.map_cons, List.nodup_cons, List.mem_map] at h
    obtain ⟨hnot, hnd⟩ := h
    by_cases ha : (a.user == r.user_id) = true
    · have hmatch : a.user = r.user_id := by simpa using ha
      have hany : (a :: tl).any (fun e => e.user == r.user_id) = true := by
        simp [List.any_cons, ha]
      have htl : ∀ e ∈ tl, (e.user == r.user_id) = false := by
        intro e he
        have : e.user ≠ r.user_id := by
          intro hc
          exact hnot ⟨e, he, by rw [hc, hmatch]⟩
        simpa using this
      simp only [aggStep, hany, if_true, List.map_cons, ha, if_true,
        aggStepRec, map_aggUpdate_no_match tl r htl]
    · have ha2 : (a.user == r.user_id) = false := by simpa using ha
      have hih := ih hnd
      cases htl : tl.any (fun e => e.user == r.user_id) with
      | true =>
        have hany : (a :: tl).any (fun e => e.user == r.user_id) = true := by
          simp [List.any_cons, htl]
        have htlstep : aggStep tl r = aggStepRec tl r := hih
        have htlmap : tl.map (fun e => if e.user == r.user_id then
            { e with up := e.up + r.upload, down := e.down + r.download } else e) =
            aggStepRec tl r := by
          rw [← htlstep]
          simp [aggStep, htl]
        simp only [aggStep, hany, if_true, List.map_cons, ha2, Bool.false_eq_true,
          if_false, aggStepRec, htlmap]
      | false =>
        have hany : (a :: tl).any (fun e => e.user == r.user_id) = false := by
          simp only [List.any_cons, htl, Bool.or_false, ha2]
        have htlapp : tl ++ [{ user := r.user_id, up := r.upload, down := r.download }] =
            aggStepRec tl r := by
          rw [← hih]
          simp [aggStep, htl]
        simp only [aggStep, hany, Bool.false_eq_true, if_false, List.cons_append,
          aggStepRec, ha2, htlapp]

theorem mem_keys_aggStepRec (m : List AggEntry) (r : TrafficReport) (x : Int)
    (hx : x ∈ (aggStepRec m r).map (fun e => e.user)) :
    x ∈ m.map (fun e => e.user) ∨ x = r.user_id := by
  induction m with
  | nil =>
    simp only [aggStepRec, List.map_cons, List.map_nil, List.mem_singleton] at hx
    exact Or.inr hx
  | cons a tl ih =>
    by_cases ha : (a.user == r.user_id) = true
    · simp only [aggStepRec, ha, if_true, List.map_cons, List.mem_cons] at hx
      rcases hx with hx | hx
      · exact Or.inl (by simp [hx])
      · exact Or.inl (by simp; exact Or.inr (by simpa using hx))
    · have ha2 : (a.user == r.user_id) = false := by simpa using ha
      simp only [aggStepRec, ha2, Bool.false_eq_true, if_false, List.map_cons,
        List.mem_cons] at hx
      rcases hx with hx | hx
      · exact Or.inl (by simp [hx])
      · rcases ih (by simpa using hx) with h | h
        · exact Or.inl (by simp; exact Or.inr (by simpa using h))
        · exact Or.inr h

theorem aggStepRec_keysNodup (m : List AggEntry) (r : TrafficReport)
    (h : aggKeysNodup m) : aggKeysNodup (aggStepRec m r) := by
  induction m with
  | nil => simp [aggStepRec, aggKeysNodup]
  | cons a tl ih =>
    unfold aggKeysNodup at h ⊢
    simp only [List.map_cons, List.nodup_cons, List.mem_map] at h
    obtain ⟨hnot, hnd⟩ := h
    by_cases ha : (a.user == r.user_id) = true
    · simp only [aggStepRec, ha, if_true, List.map_cons, List.nodup_cons, List.mem_map]
      exact ⟨hnot, hnd⟩
    · have ha2 : (a.user == r.user_id) = false := by simpa using ha
      have hanot : a.user ≠ r.user_id := by simpa using ha
      simp only [aggStepRec, ha2, Bool.false_eq_true, if_false, List.map_cons,
        List.nodup_cons]
      constructor
      · intro hmem
        rcases mem_keys_aggStepRec tl r a.user hmem with hmem2 | hmem2
        · simp only [List.mem_map] at hmem2
          exact hnot hmem2
        · exact hanot hmem2
      · exact ih hnd

theorem aggFold_eq_rec (rs : List TrafficReport) :
    ∀ (m : List AggEntry), aggKeysNodup m →
      rs.foldl aggStep m = rs.foldl aggStepRec m := by
  induction rs with
  | nil => intro m _; rfl
  | cons r rs ih =>
    intro m hm
    simp only [List.foldl_cons]
    rw [aggStep_eq_rec m r hm]
    exact ih _ (aggStepRec_keysNodup m r hm)

theorem aggregateTraffic_eq_rec (rs : List TrafficReport) :
    aggregateTraffic rs = rs.foldl aggStepRec [] :=
  aggFold_eq_rec rs [] (by simp [aggKeysNodup])

theorem aggLookup_cons (a : AggEntry) (m : List AggEntry) (u : Int) :
    aggLookup (a :: m) u =
      if (a.user == u) = true then some (a.up, a.down) else aggLookup m u := by
  unfold aggLookup
  rw [List.find?_cons]
  by_cases h : (a.user == u) = true <;> simp [h]

theorem aggLookup_stepRec (m : List AggEntry) (r : TrafficReport) (u : Int) :
    aggLookup (aggStepRec m r) u =
      if u = r.user_id then
        match aggLookup m u with
        | some (a, b) => some (a + r.upload, b + r.download)
        | none => some (r.upload, r.download)
      else aggLookup m u := by
  induction m with
  | nil =>
    simp only [aggStepRec]
    rw [aggLookup_cons]
    by_cases hu : u = r.user_id
    · have hb : (r.user_id == u) = true := by simp [hu]
      simp [hb, hu, aggLookup]
    · have hb : (r.user_id == u) = false := by
        simp only [beq_eq_false_iff_ne, ne_eq]
        exact fun hc => hu hc.symm
      simp [hb, hu, aggLookup]
  | cons a tl ih =>
    by_cases ha : (a.user == r.user_id) = true
    · have hm : a.user = r.user_id := by simpa using ha
      simp only [aggStepRec, ha, if_true]
      rw [aggLookup_cons, aggLookup_cons]
      by_cases hau : (a.user == u) = true
      · have h1 : a.user = u := by simpa using hau
        have hueq : u = r.user_id := by omega
        rw [if_pos hueq]
        simp [hau]
      · have hau2 : (a.user == u) = false := by simpa using hau
        have hune : u ≠ r.user_id := by
          intro hc
          apply hau
          have : a.user = u := by rw [hm, hc]
          simp [this]
        rw [if_neg hune]
        simp [hau2]
    · have ha2 : (a.user == r.user_id) = false := by simpa using ha
      have hanr : a.user ≠ r.user_id := by simpa using ha2
      simp only [aggStepRec, ha2, Bool.false_eq_true, if_false]
      rw [aggLookup_cons, aggLookup_cons]
      by_cases hau : (a.user == u) = true
      · have hfalse : u ≠ r.user_id := by
          intro hc
          apply hanr
          have h1 : a.user = u := by simpa using hau
          rw [h1, hc]
        rw [if_neg hfalse]
        simp [hau]
      · have hau2 : (a.user == u) = false := by simpa using hau
        simp only [hau2, Bool.false_eq_true, if_false]
        exact ih

theorem sumUpFor_cons (r : TrafficReport) (rs : List TrafficReport) (u : Int) :
    sumUpFor (r :: rs) u =
      (if (r.user_id == u) = true then r.upload else 0) + sumUpFor rs u := by
  unfold sumUpFor
  rw [List.filter_cons]
  by_cases h : (r.user_id == u) = true <;> simp [h]

theorem sumDownFor_cons (r : TrafficReport) (rs : List TrafficReport) (u : Int) :
    sumDownFor (r :: rs) u =
      (if (r.user_id == u) = true then r.download else 0) + sumDownFor rs u := by
  unfold sumDownFor
  rw [List.filter_cons]
  by_cases h : (r.user_id == u) = true <;> simp [h]

theorem sumTotalFor_cons (r : TrafficReport) (rs : List TrafficReport) (u : Int) :
    sumTotalFor (r :: rs) u =
      (if (r.user_id == u) = true then r.upload + r.download else 0) + sumTotalFor rs u := by
  unfold sumTotalFor
  rw [List.filter_cons]
  by_cases h : (r.user_id == u) = true <;> simp [h]

theorem aggLookup_foldRec (rs : List TrafficReport) :
    ∀ (m : List AggEntry) (u : Int),
      aggLookup (rs.foldl aggStepRec m) u =
        match aggLookup m u with
        | some (a, b) => some (a + sumUpFor rs u, b + sumDownFor rs u)
        | none =>
          if rs.any (fun r => r.user_id == u) then
            some (sumUpFor rs u, sumDownFor rs u)
          else none := by
  induction rs with
  | nil =>
    intro m u
    simp only [List.foldl_nil, sumUpFor, sumDownFor, List.filter_nil, List.map_nil,
      List.sum_nil, List.any_nil, Bool.false_eq_true, if_false]
    cases aggLookup m u with
    | none => rfl
    | some v => obtain ⟨a, b⟩ := v; simp
  | cons r rs ih =>
    intro m u
    simp only [List.foldl_cons]
    rw [ih (aggStepRec m r) u, aggLookup_stepRec m r u]
    by_cases hu : u = r.user_id
    · have hb : (r.user_id == u) = true := by simp [hu]
      rw [if_pos hu, sumUpFor_cons, sumDownFor_cons]
      have hany : (r :: rs).any (fun x => x.user_id == u) = true := by
        simp [List.any_cons, hb]
      rw [hany]
      cases hm : aggLookup m u with
      | none => simp [hb]
      | some v =>
        obtain ⟨a, b⟩ := v
        simp only [hb, if_true, Option.some.injEq, Prod.mk.injEq]
        constructor <;> ring
    · have hb : (r.user_id == u) = false := by
        simp only [beq_eq_false_iff_ne, ne_eq]
        exact fun hc => hu hc.symm
      rw [if_neg hu, sumUpFor_cons, sumDownFor_cons]
      have hany : (r :: rs).any (fun x => x.user_id == u) =
          rs.any (fun x => x.user_id == u) := by
        simp [List.any_cons, hb]
      rw [hany]
      simp [hb]

theorem entriesSum_cons (a : AggEntry) (m : List AggEntry) (u : Int) :
    entriesSum (a :: m) u =
      (if (a.user == u) = true then a.up + a.down else 0) + entriesSum m u := by
  unfold entriesSum
  rw [List.filter_cons]
  by_cases h : (a.user == u) = true <;> simp [h]

theorem entriesSum_stepRec (m : List AggEntry) (r : TrafficReport) (u : Int) :
    entriesSum (aggStepRec m r) u =
      entriesSum m u + (if (r.user_id == u) = true then r.upload + r.download else 0) := by
  induction m with
  | nil =>
    simp only [aggStepRec]
    rw [entriesSum_cons]
    by_cases h : (r.user_id == u) = true <;> simp [entriesSum, h]
  | cons a tl ih =>
    by_cases ha : (a.user == r.user_id) = true
    · have hm : a.user = r.user_id := by simpa using ha
      simp only [aggStepRec, ha, if_true]
      rw [entriesSum_cons, entriesSum_cons]
      by_cases hau : (a.user == u) = true
      · have hru : (r.user_id == u) = true := by rw [← hm]; exact hau
        simp only [hau, if_true, hru]
        ring
      · have hau2 : (a.user == u) = false := by simpa using hau
        have hru : (r.user_id == u) = false := by rw [← hm]; exact hau2
        simp only [hau2, hru, Bool.false_eq_true, if_false]
        ring
    · have ha2 : (a.user == r.user_id) = false := by simpa using ha
      simp only [aggStepRec, ha2, Bool.false_eq_true, if_false]
      rw [entriesSum_cons, entriesSum_cons, ih]
      ring

theorem entriesSum_foldRec (rs : List TrafficReport) :
    ∀ (m : List AggEntry) (u : Int),
      entriesSum (rs.foldl aggStepRec m) u = entriesSum m u + sumTotalFor rs u := by
  induction rs with
  | nil =>
    intro m u
    simp [sumTotalFor]
  | cons r rs ih =>
    intro m u
    simp only [List.foldl_cons]
    rw [ih (aggStepRec m r) u, entriesSum_stepRec m r u, sumTotalFor_cons]
    ring

theorem entriesSum_aggregate (rs : List TrafficReport) (u : Int) :
    entriesSum (aggregateTraffic rs) u = sumTotalFor rs u := by
  rw [aggregateTraffic_eq_rec, entriesSum_foldRec]
  simp [entriesSum]

theorem applyAggEntry_length (users : List User) (failU : Int → Bool) (now : Int)
    (e : AggEntry) : (applyAggEntry users failU now e).length = users.length := by
  unfold applyAggEntry
  split <;> simp

theorem updateBatch_length (entries : List AggEntry) (failU : Int → Bool) (now : Int) :
    ∀ users : List User,
      (updateUserTrafficBatch entries failU now users).length = users.length := by
  induction entries with
  | nil => intro users; rfl
  | cons e es ih =>
    intro users
    unfold updateUserTrafficBatch
    rw [ih, applyAggEntry_length]

theorem updateBatch_traffic (entries : List AggEntry) (f : Int → Bool) (now : Int) :
    ∀ (users : List User) (i : Nat),
      ((updateUserTrafficBatch entries f now users)[i]?).map
          (fun u => (u.id, u.traffic_used)) =
        (users[i]?).map (fun u =>
          (u.id, u.traffic_used + (if f u.id then 0 else entriesSum entries u.id))) := by
  induction entries with
  | nil =>
    intro users i
    cases hu : users[i]? with
    | none => simp [updateUserTrafficBatch, hu]
    | some u =>
      simp only [updateUserTrafficBatch, hu, Option.map_some']
      have : entriesSum [] u.id = 0 := by simp [entriesSum]
      rw [this]
      simp [ite_self]
  | cons e es ih =>
    intro users i
    have hstep : updateUserTrafficBatch (e :: es) f now users =
        updateUserTrafficBatch es f now (applyAggEntry users f now e) := rfl
    rw [hstep, ih (applyAggEntry users f now e) i]
    by_cases hf : f e.user = true
    · have hmid : applyAggEntry users f now e = users := by simp [applyAggEntry, hf]
      rw [hmid]
      cases hu : users[i]? with
      | none => simp
      | some u =>
        simp only [hu, Option.map_some', Option.some.injEq, Prod.mk.injEq, true_and]
        by_cases hfu : f u.id = true
        · simp [hfu]
        · have hfu2 : f u.id = false := by simpa using hfu
          have hne : u.id ≠ e.user := by
            intro hc
            rw [hc, hf] at hfu2
            exact Bool.noConfusion hfu2
          have hbe : (e.user == u.id) = false := by
            simp only [beq_eq_false_iff_ne, ne_eq]
            exact fun hc => hne hc.symm
          simp [hfu2, entriesSum_cons, hbe]
    · have hf2 : f e.user = false := by simpa using hf
      have hmid : applyAggEntry users f now e = users.map (fun u =>
          if u.id == e.user then
            { u with traffic_used := u.traffic_used + (e.up + e.down), updated_at := now }
          else u) := by
        simp [applyAggEntry, hf2]
      rw [hmid, List.getElem?_map]
      cases hu : users[i]? with
      | none => simp
      | some u =>
        simp only [hu, Option.map_some', Option.some.injEq]
        by_cases hm : (u.id == e.user) = true
        · have hid : u.id = e.user := by simpa using hm
          have hfu : f u.id = false := by rw [hid]; exact hf2
          have hbe : (e.user == u.id) = true := by simp [hid]
          simp only [hm, if_true, hfu, Bool.false_eq_true, if_false,
            entriesSum_cons, hbe, Prod.mk.injEq, true_and]
          ring
        · have hm2 : (u.id == e.user) = false := by simpa using hm
          have hbe : (e.user == u.id) = false := by
            simp only [beq_eq_false_iff_ne, ne_eq]
            intro hc
            have : u.id = e.user := hc.symm
            rw [this] at hm2
            simp at hm2
          simp only [hm2, Bool.false_eq_true, if_false, entriesSum_cons, hbe,
            Prod.mk.injEq, true_and]
          simp

theorem sumTotalFor_nonneg (reports : List TrafficReport) (u : Int)
    (h : ∀ r ∈ reports, 0 ≤ r.upload ∧ 0 ≤ r.download) : 0 ≤ sumTotalFor reports u := by
  unfold sumTotalFor
  apply List.sum_nonneg
  intro x hx
  simp only [List.mem_map] at hx
  obtain ⟨r, hr, rfl⟩ := hx
  have := h r (List.mem_of_mem_filter hr)
  omega

/-- C8: the in-memory aggregation maps a user id to the pair of its upload
and download sums exactly when that user appears in the batch (no other
keys); the batch update adds to each row's `traffic_used` exactly the sum of
`upload + download` over that user's tuples (zero for users whose UPDATE
failed), and for nonnegative tuples no row's `traffic_used` decreases. -/
theorem c8_aggregation_exact_and_monotonic (reports : List TrafficReport) :
    (∀ u, aggLookup (aggregateTraffic reports) u =
        if reports.any (fun r => r.user_id == u) then
          some (sumUpFor reports u, sumDownFor reports u)
        else none) ∧
    (∀ (users : List User) (failU : Int → Bool) (now : Int) (i : Nat),
        ((updateUserTrafficBatch (aggregateTraffic reports) failU now users)[i]?).map
            (fun u => (u.id, u.traffic_used)) =
          (users[i]?).map (fun u =>
            (u.id, u.traffic_used +
              (if failU u.id then 0 else sumTotalFor reports u.id)))) ∧
    ((∀ r ∈ reports, 0 ≤ r.upload ∧ 0 ≤ r.download) →
      ∀ (users : List User) (failU : Int → Bool) (now : Int) (i : Nat) (u u1 : User),
        users[i]? = some u →
        (updateUserTrafficBatch (aggregateTraffic reports) failU now users)[i]? = some u1 →
        u.traffic_used ≤ u1.traffic_used) := by
  have hmid : ∀ (users : List User) (failU : Int → Bool) (now : Int) (i : Nat),
      ((updateUserTrafficBatch (aggregateTraffic reports) failU now users)[i]?).map
          (fun u => (u.id, u.traffic_used)) =
        (users[i]?).map (fun u =>
          (u.id, u.traffic_used +
            (if failU u.id then 0 else sumTotalFor reports u.id))) := by
    intro users failU now i
    rw [updateBatch_traffic]
    cases hu : users[i]? with
    | none => rfl
    | some u => simp [entriesSum_aggregate]
  refine ⟨?_, hmid, ?_⟩
  · intro u
    rw [aggregateTraffic_eq_rec, aggLookup_foldRec]
    simp [aggLookup]
  · intro hnn users failU now i u u1 hu hu1
    have h2 := hmid users failU now i
    rw [hu, hu1] at h2
    simp only [Option.map_some', Option.some.injEq, Prod.mk.injEq] at h2
    obtain ⟨_, h2b⟩ := h2
    have hnonneg : 0 ≤ (if failU u.id then 0 else sumTotalFor reports u.id) := by
      split
      · exact le_refl 0
      · exact sumTotalFor_nonneg reports u.id hnn
    omega

/-- C8 witness: on the unit-test batch, user 100 aggregates to
`(1500, 3500)`, and the user row gains `5000` bytes of `traffic_used`. -/
theorem c8_aggregation_witness :
    aggLookup (aggregateTraffic reportsEx) 100 = some (1500, 3500) ∧
    ((updateUserTrafficBatch (aggregateTraffic reportsEx) (fun _ => false) 5
        [userTrafficEx])[0]?).map (fun u => (u.id, u.traffic_used)) =
      some ((100 : Int), (5007 : Int)) ∧
    userTrafficEx.traffic_used ≤ (5007 : Int) := by
  have h := c8_aggregation_exact_and_monotonic reportsEx
  refine ⟨?_, ?_, ?_⟩
  · rw [h.1 100]; decide
  · rw [h.2.1 [userTrafficEx] (fun _ => false) 5 0]; decide
  · exact h.2.2 (by decide) [userTrafficEx] (fun _ => false) 5 0 userTrafficEx
      { userTrafficEx with traffic_used := 5007, updated_at := 5 } (by rfl) (by rfl)

/-! ## Batch acknowledgment lemmas (C3) -/

theorem parseAll_none (msgs : List StreamMsg) (m : StreamMsg) (hm : m ∈ msgs)
    (h : parseTrafficReport m.fields = none) : parseAll msgs = none := by
  induction msgs with
  | nil => cases hm
  | cons a tl ih =>
    rcases List.mem_cons.mp hm with rfl | hmem
    · simp [parseAll, h]
    · cases hfa : parseTrafficReport a.fields with
      | none => simp [parseAll, hfa]
      | some b => simp [parseAll, hfa, ih hmem]

theorem parseAll_some (msgs : List StreamMsg)
    (h : ∀ m ∈ msgs, (parseTrafficReport m.fields).isSome) :
    ∃ reports, parseAll msgs = some reports := by
  induction msgs with
  | nil => exact ⟨[], rfl⟩
  | cons a tl ih =>
    obtain ⟨b, hb⟩ := Option.isSome_iff_exists.mp (h a (List.mem_cons_self a tl))
    obtain ⟨bs, hbs⟩ := ih (fun m hm => h m (List.mem_cons_of_mem a hm))
    exact ⟨b :: bs, by simp [parseAll, hb, hbs]⟩

/-- C3 counterexample: a batch whose only tuple parses cleanly but whose
per-user UPDATE fails is still fully acknowledged (and the user row keeps
its old counter), against the claim that such a batch's ids are not
acknowledged. -/
theorem c3_counterexample_ack_despite_update_failure :
    processBatch [goodMsgEx] (fun u => u == 7) 50 [userSevenEx] =
      some { users := [userSevenEx], acked := ["1-1"], processed := 1 } ∧
    (["1-1"] : List String) ≠ [] := by
  exact ⟨rfl, by decide⟩

/-- C3 (amended): when every tuple of the batch parses, the whole batch is
acknowledged — also when some per-user UPDATE fails (those increments are
lost for the batch); only a field-parse failure of some tuple makes the
batch error out before any acknowledgment. -/
theorem c3_batch_ack_policy (msgs : List StreamMsg) (failU : Int → Bool) (now : Int)
    (users : List User) :
    ((∀ m ∈ msgs, (parseTrafficReport m.fields).isSome) →
      ∃ out, processBatch msgs failU now users = some out ∧
        out.acked = msgs.map (fun m => m.id)) ∧
    (∀ m ∈ msgs, parseTrafficReport m.fields = none →
      processBatch msgs failU now users = none) := by
  constructor
  · intro h
    by_cases he : msgs.isEmpty
    · have hnil : msgs = [] := by
        cases msgs with
        | nil => rfl
        | cons a tl => simp [List.isEmpty] at he
      subst hnil
      exact ⟨{ users := users, acked := [], processed := 0 }, rfl, rfl⟩
    · obtain ⟨reports, hrep⟩ := parseAll_some msgs h
      refine ⟨{ users := updateUserTrafficBatch (aggregateTraffic reports) failU now users,
                acked := msgs.map (fun m => m.id), processed := reports.length }, ?_, rfl⟩
      simp only [processBatch, he, Bool.false_eq_true, if_false, hrep]
  · intro m hm hnone
    have hne : msgs.isEmpty = false := by
      cases msgs with
      | nil => cases hm
      | cons a tl => simp [List.isEmpty]
    simp only [processBatch, hne, Bool.false_eq_true, if_false,
      parseAll_none msgs m hm hnone]

/-- C3 witness: a clean batch is fully acknowledged even though every user's
UPDATE fails, and a batch containing one malformed tuple errors out. -/
theorem c3_batch_ack_policy_witness :
    (∃ out, processBatch [goodMsgEx] (fun _ => true) 50 [userSevenEx] = some out ∧
      out.acked = ["1-1"]) ∧
    processBatch [goodMsgEx, badMsgEx] (fun _ => false) 50 [userSevenEx] = none := by
  constructor
  · obtain ⟨out, hout, hack⟩ :=
      (c3_batch_ack_policy [goodMsgEx] (fun _ => true) 50 [userSevenEx]).1 (by decide)
    exact ⟨out, hout, hack.trans (by rfl)⟩
  · exact (c3_batch_ack_policy [goodMsgEx, badMsgEx] (fun _ => false) 50 [userSevenEx]).2
      badMsgEx (by simp) (by rfl)

/-! ## Subscription sentinel (C6) -/

/-- C6: on a cache-miss fetch with a valid token of an active user, when the
user's `traffic_quota` is not strictly above `traffic_used` the response is
HTTP 200, `text/yaml`, with body exactly the empty-config sentinel, and a
`quota_exceeded` access log is enqueued; with traffic left but no current
entitlement the same 200 sentinel is returned, logged as `expired`. -/
theorem c6_quota_sentinel (st : DBState) (token : String) (now : Int)
    (sub : Subscription) (user : User)
    (hsub : findSubByToken st token = some sub)
    (huser : findUser st sub.user_id = some user)
    (hactive : user.status ≠ "disabled") :
    (¬ (user.traffic_quota > user.traffic_used) →
      subscriptionHandler st none token now =
        { res := .ok ("text/yaml; charset=utf-8", .text emptyConfigSentinel),
          log := some "quota_exceeded" } ∧
      subStatus (subscriptionHandler st none token now) = 200) ∧
    (user.traffic_used < user.traffic_quota →
      currentUserPackage st sub.user_id now = none →
      subscriptionHandler st none token now =
        { res := .ok ("text/yaml; charset=utf-8", .text emptyConfigSentinel),
          log := some "expired" } ∧
      subStatus (subscriptionHandler st none token now) = 200) := by
  have huid : user.id = sub.user_id := by
    have := List.find?_some huser
    simpa using this
  have hdis : (user.status == "disabled") = false := by
    simp only [beq_eq_false_iff_ne, ne_eq]
    exact hactive
  have hq : checkTrafficQuota st user.id =
      decide (user.traffic_used < user.traffic_quota) := by
    unfold checkTrafficQuota
    rw [huid, huser]
  constructor
  · intro hnot
    have hqf : checkTrafficQuota st user.id = false := by
      rw [hq]
      exact decide_eq_false hnot
    have hmain : subscriptionHandler st none token now =
        { res := .ok ("text/yaml; charset=utf-8", .text emptyConfigSentinel),
          log := some "quota_exceeded" } := by
      simp only [subscriptionHandler, hsub, huser, hdis, Bool.false_eq_true, if_false,
        hqf, Bool.not_false, if_true]
    exact ⟨hmain, by rw [hmain]; rfl⟩
  · intro hlt hnone
    have hqt : checkTrafficQuota st user.id = true := by
      rw [hq]
      exact decide_eq_true hlt
    have hqt2 : checkTrafficQuota st sub.user_id = true := by
      rw [← huid]
      exact hqt
    have hmain : subscriptionHandler st none token now =
        { res := .ok ("text/yaml; charset=utf-8", .text emptyConfigSentinel),
          log := some "expired" } := by
      simp only [subscriptionHandler, hsub, huser, hdis, Bool.false_eq_true, if_false,
        hqt, hqt2, Bool.not_true, huid, hnone]
    exact ⟨hmain, by rw [hmain]; rfl⟩

/-- C6 witness: the over-quota fixture gets the sentinel logged
`quota_exceeded`; the entitlement-free fixture gets it logged `expired`. -/
theorem c6_quota_sentinel_witness :
    subscriptionHandler stSubEx none "tok6" 1000 =
      { res := .ok ("text/yaml; charset=utf-8", .text emptyConfigSentinel),
        log := some "quota_exceeded" } ∧
    subscriptionHandler stSubEx none "tok7" 1000 =
      { res := .ok ("text/yaml; charset=utf-8", .text emptyConfigSentinel),
        log := some "expired" } := by
  constructor
  · exact ((c6_quota_sentinel stSubEx "tok6" 1000 subQuotaEx userQuotaEx rfl rfl
      (by decide)).1 (by decide)).1
  · exact ((c6_quota_sentinel stSubEx "tok7" 1000 subNoPkgEx userNoPkgEx rfl rfl
      (by decide)).2 (by decide) rfl).1

/-! ## Registration (C10) -/

/-- C10: a registration whose referral code matches no user fails with 400
"Invalid referral code" (no user row is created); a matching code sets the
new user's `referred_by` to that referrer's id; and a user row is created
only after email validation, password validation and the duplicate-email
check succeed. -/
theorem c10_register_referral (st : DBState) (email password : String)
    (code : String) (candidates : List String) (hashF : String → String) (now : Int) :
    (validateEmail email = .ok () → validatePassword password = .ok () →
      findUserByEmail st email = none →
      findUserByReferralCode st code = none →
      registerHandler st email password (some code) candidates hashF now =
        .error (.badRequest "Invalid referral code") ∧
      apiStatus (.badRequest "Invalid referral code") = 400) ∧
    (∀ referrer st2 u, findUserByReferralCode st code = some referrer →
      registerHandler st email password (some code) candidates hashF now = .ok (st2, u) →
      u.referred_by = some referrer.id) ∧
    (∀ rc st2 u, registerHandler st email password rc candidates hashF now = .ok (st2, u) →
      validateEmail email = .ok () ∧ validatePassword password = .ok () ∧
      findUserByEmail st email = none ∧ st2.users = st.users ++ [u]) := by
  have hcreate : ∀ (ph : String) (rb : Option Int) (st2 : DBState) (u : User),
      registerCreate st email ph rb candidates now = .ok (st2, u) →
      st2.users = st.users ++ [u] ∧ u.referred_by = rb := by
    intro ph rb st2 u h
    unfold registerCreate at h
    split at h
    · exact Except.noConfusion h
    · simp only [Except.ok.injEq, Prod.mk.injEq] at h
      obtain ⟨hst, hu⟩ := h
      constructor
      · rw [← hst, ← hu]
      · rw [← hu]
  refine ⟨?_, ?_, ?_⟩
  · intro h1 h2 h3 h4
    refine ⟨?_, rfl⟩
    simp only [registerHandler, h1, h2, h3, h4, Option.isSome_none,
      Bool.false_eq_true, if_false]
  · intro referrer st2 u h4 hok
    unfold registerHandler at hok
    split at hok
    · exact Except.noConfusion hok
    · split at hok
      · exact Except.noConfusion hok
      · split at hok
        · exact Except.noConfusion hok
        · simp only [h4] at hok
          exact (hcreate _ _ _ _ hok).2
  · intro rc st2 u hok
    unfold registerHandler at hok
    split at hok <;> rename_i hve
    · exact Except.noConfusion hok
    · split at hok <;> rename_i hvp
      · exact Except.noConfusion hok
      · split at hok <;> rename_i hdup
        · exact Except.noConfusion hok
        · have hemail : validateEmail email = .ok () := by rw [hve]
          have hpass : validatePassword password = .ok () := by rw [hvp]
          have hnodup : findUserByEmail st email = none :=
            Option.not_isSome_iff_eq_none.mp (by simp [hdup])
          refine ⟨hemail, hpass, hnodup, ?_⟩
          split at hok
          · split at hok
            · exact (hcreate _ _ _ _ hok).1
            · exact Except.noConfusion hok
          · exact (hcreate _ _ _ _ hok).1

/-- C10 witness: on the registration fixture, an unknown referral code is
rejected with the 400 error, and registering with `REF1` yields a user whose
`referred_by` is the referrer's id. -/
theorem c10_register_referral_witness :
    registerHandler stRegEx "a@example.com" "Passw0rd" (some "BAD") ["NEW1"] hashFEx 0 =
      .error (.badRequest "Invalid referral code") ∧
    userRegNewEx.referred_by = some 1 := by
  constructor
  · exact ((c10_register_referral stRegEx "a@example.com" "Passw0rd" "BAD" ["NEW1"]
      hashFEx 0).1 rfl rfl rfl rfl).1
  · exact (c10_register_referral stRegEx "a@example.com" "Passw0rd" "REF1" ["NEW1"]
      hashFEx 0).2.1 userRefEx
      { stRegEx with users := stRegEx.users ++ [userRegNewEx], next_user_id := 3 }
      userRegNewEx rfl (by rfl)

/-! ## Purchase transactor lemmas (C1, C2, C5) -/

theorem rebate_noop_when_completed (st : DBState) (uid amt now : Int)
    (h : 0 < completedOrderCount st uid) :
    processReferralRebate st uid amt now = (st, none) := by
  cases hfu : findUser st uid with
  | none => simp [processReferralRebate, hfu]
  | some user =>
    cases hrb : user.referred_by with
    | none => simp [processReferralRebate, hfu, hrb]
    | some rid =>
      by_cases hself : (rid == uid) = true
      · simp [processReferralRebate, hfu, hrb, hself]
      · have hself2 : (rid == uid) = false := by simpa using hself
        simp [processReferralRebate, hfu, hrb, hself2, h]

theorem rebate_noop_fst (uid amt now : Int) (s : DBState)
    (h : 0 < completedOrderCount s uid) :
    (processReferralRebate s uid amt now).1 = s := by
  rw [rebate_noop_when_completed s uid amt now h]

/-- Minimal inversion of a successful purchase: the checks all passed. -/
theorem purchase_ok_pre (st : DBState) (now uid pid : Int) (st2 : DBState)
    (res : PurchaseResult)
    (hok : purchasePackageHandler st now uid pid = .ok (st2, res)) :
    ∃ user package, findUser st uid = some user ∧ findPackage st pid = some package ∧
      package.is_active = true ∧ user.status ≠ "disabled" ∧
      ¬ user.coin_balance < package.price := by
  unfold purchasePackageHandler at hok
  split at hok <;> rename_i hpkg
  · exact Except.noConfusion hok
  rename_i package
  split at hok <;> rename_i hact
  · exact Except.noConfusion hok
  split at hok <;> rename_i huser
  · exact Except.noConfusion hok
  rename_i user
  split at hok <;> rename_i hdis
  · exact Except.noConfusion hok
  split at hok <;> rename_i hbal
  · exact Except.noConfusion hok
  exact ⟨user, package, huser, hpkg, by simpa using hact, by simpa using hdis, hbal⟩

/-- Forward evaluation of a successful purchase: under the passing checks
the handler returns exactly the committed transaction's state and the
response values (the post-commit referral rebate is a no-op because the
completed-order count already includes the order this purchase completed). -/
theorem purchase_ok_run (st : DBState) (now uid pid : Int) (user : User)
    (package : Package)
    (hpkg : findPackage st pid = some package) (hact : package.is_active = true)
    (huser : findUser st uid = some user) (hdis : user.status ≠ "disabled")
    (hbal : ¬ user.coin_balance < package.price) :
    purchasePackageHandler st now uid pid = .ok
      ({ st with
         orders := (st.orders ++
             [(⟨st.next_order_id, "ORD-" ++ toString uid ++ "-" ++ toString now, uid,
               pid, package.price, "pending", now, none⟩ : Order)]).map
           (fun o => if o.id == st.next_order_id then
              { o with status := "completed", completed_at := some now } else o),
         next_order_id := st.next_order_id + 1,
         users := (st.users.map (fun u => if u.id == uid then
             { u with coin_balance := user.coin_balance - package.price,
                      updated_at := now } else u)).map
           (fun u => if u.id == uid then
             { u with traffic_quota := user.traffic_quota + package.traffic_amount,
                      updated_at := now } else u),
         coin_transactions := st.coin_transactions ++
           [(⟨st.next_coin_transaction_id, uid, -package.price, "purchase",
             some ("Purchase package: " ++ package.name), now⟩ : CoinTransaction)],
         next_coin_transaction_id := st.next_coin_transaction_id + 1,
         user_packages := st.user_packages ++
           [(⟨st.next_user_package_id, uid, pid, st.next_order_id,
             package.traffic_amount, 0, now + package.duration_days * dayMs,
             "active"⟩ : UserPackage)],
         next_user_package_id := st.next_user_package_id + 1 },
       { order_id := st.next_order_id,
         order_no := "ORD-" ++ toString uid ++ "-" ++ toString now,
         package_name := package.name, traffic_added := package.traffic_amount,
         new_balance := user.coin_balance - package.price,
         new_traffic_quota := user.traffic_quota + package.traffic_amount,
         expires_at := now + package.duration_days * dayMs }) := by
  have hdis2 : (user.status == "disabled") = false := by simp [hdis]
  have hact2 : (!package.is_active) = false := by simp [hact]
  unfold purchasePackageHandler
  rw [hpkg]
  simp only [hact2, Bool.false_eq_true, if_false, huser, hdis2, if_neg hbal,
    setUserBalance, setUserTrafficQuota, insertCoinTransaction]
  rw [rebate_noop_fst uid package.price now]
  unfold completedOrderCount
  rw [List.map_append, List.countP_append]
  have h1 : List.countP
      (fun o => o.user_id == uid && o.status == "completed")
      (List.map (fun o => if o.id == st.next_order_id then
         { o with status := "completed", completed_at := some now } else o)
       [(⟨st.next_order_id, "ORD-" ++ toString uid ++ "-" ++ toString now, uid, pid,
         package.price, "pending", now, none⟩ : Order)]) = 1 := by
    simp
  omega

/-- C1: a successful purchase returns `new_balance = pre-balance − price`
and `new_traffic_quota = pre-quota + traffic_amount`, completes the order,
and creates exactly one UserPackage row for the returned order id, with
`traffic_quota = traffic_amount` and `expires_at = now + duration_days`.
The freshness hypothesis says the serial order id about to be assigned is
unused among existing user-package rows (a database invariant). -/
theorem c1_purchase_success_effects (st : DBState) (now uid pid : Int)
    (st2 : DBState) (res : PurchaseResult)
    (hfresh : ∀ up ∈ st.user_packages, up.order_id ≠ st.next_order_id)
    (hok : purchasePackageHandler st now uid pid = .ok (st2, res)) :
    ∃ user package, findUser st uid = some user ∧ findPackage st pid = some package ∧
      res.new_balance = user.coin_balance - package.price ∧
      res.new_traffic_quota = user.traffic_quota + package.traffic_amount ∧
      (∃ o ∈ st2.orders, o.id = res.order_id ∧ o.status = "completed" ∧
        o.completed_at = some now) ∧
      st2.user_packages.countP (fun up => up.order_id == res.order_id) = 1 ∧
      ∀ up ∈ st2.user_packages, up.order_id = res.order_id →
        up.traffic_quota = package.traffic_amount ∧
        up.expires_at = now + package.duration_days * dayMs := by
  obtain ⟨user, package, huser, hpkg, hact, hdis, hbal⟩ :=
    purchase_ok_pre st now uid pid st2 res hok
  rw [purchase_ok_run st now uid pid user package hpkg hact huser hdis hbal] at hok
  simp only [Except.ok.injEq, Prod.mk.injEq] at hok
  obtain ⟨hst, hres⟩ := hok
  subst hst
  subst hres
  refine ⟨user, package, huser, hpkg, rfl, rfl, ?_, ?_, ?_⟩
  · refine ⟨(⟨st.next_order_id, "ORD-" ++ toString uid ++ "-" ++ toString now, uid,
      pid, package.price, "completed", now, some now⟩ : Order), ?_, rfl, rfl, rfl⟩
    apply List.mem_map.mpr
    refine ⟨(⟨st.next_order_id, "ORD-" ++ toString uid ++ "-" ++ toString now, uid,
      pid, package.price, "pending", now, none⟩ : Order),
      List.mem_append_right _ (by simp), ?_⟩
    simp
  · show (st.user_packages ++ [_]).countP _ = 1
    rw [List.countP_append]
    have h0 : st.user_packages.countP
        (fun up => up.order_id == st.next_order_id) = 0 := by
      apply List.countP_eq_zero.mpr
      intro up hup
      simpa using hfresh up hup
    simp only [h0]
    simp
  · intro up hup hid
    rcases List.mem_append.mp hup with hmem | hmem
    · exact absurd hid (hfresh up hmem)
    · have : up = (⟨st.next_user_package_id, uid, pid, st.next_order_id,
          package.traffic_amount, 0, now + package.duration_days * dayMs,
          "active"⟩ : UserPackage) := by simpa using hmem
      subst this
      exact ⟨rfl, rfl⟩

/-- C1 witness: buying the 500-coin / 1000-byte / 30-day package fixture
from a 1000-coin balance succeeds with `new_balance = 500`,
`new_traffic_quota = 1000`, and one user-package row for the order. -/
theorem c1_purchase_witness :
    ∃ st2 res, purchasePackageHandler stPurchaseEx 1000 2 10 = .ok (st2, res) ∧
      res.new_balance = 500 ∧ res.new_traffic_quota = 1000 ∧
      st2.user_packages.countP (fun up => up.order_id == res.order_id) = 1 := by
  obtain ⟨user, package, hu, hp, h1, h2, h3, h4, h5⟩ :=
    c1_purchase_success_effects stPurchaseEx 1000 2 10 _ _
      (by simp [stPurchaseEx, emptyDB]) rfl
  exact ⟨_, _, rfl, by rfl, by rfl, h4⟩

/-- C2 evidence at the failing input: the first completed purchase of a
referred user (buyer 2, referred by user 1, package price 500) creates no
`referral` transaction and leaves the referrer's balance unchanged, because
`process_referral_rebate` counts completed orders AFTER the purchase
transaction commits and exits on `count > 0` — the just-completed order
makes the count 1, so the rebate can never be issued. -/
theorem c2_no_rebate_on_first_referred_purchase :
    ∃ st2 res, purchasePackageHandler stPurchaseEx 1000 2 10 = .ok (st2, res) ∧
      userBuyerEx.referred_by = some 1 ∧
      completedOrderCount stPurchaseEx 2 = 0 ∧
      completedOrderCount st2 2 = 1 ∧
      st2.coin_transactions.countP (fun t => t.transaction_type == "referral") = 0 ∧
      (findUser st2 1).map (fun u => u.coin_balance) = some 100 := by
  exact ⟨_, _, rfl, rfl, rfl, rfl, rfl, rfl⟩

/-- C4 evidence at the failing input: the subscription materializer renders
its document from the nodes with `status = 'online'` — the fixture's online
node with `include_in_clash = false` contributes a proxy — while the
include-in-clash query (`list_clash_nodes`, which the claim describes) is
empty on this store. -/
theorem c4_subscription_ignores_include_in_clash :
    (subscriptionHandler stC4Ex none "tok7" 1000).res =
      .ok ("text/yaml; charset=utf-8",
        .yamlDoc (generateClashDoc (listNodesByStatus stC4Ex "online"))) ∧
    (generateClashDoc (listNodesByStatus stC4Ex "online")).proxies =
      [ClashProxy.ss "n1" "h1.example.com" 443 "aes-256-gcm" "sek" true] ∧
    nodeNotInClashEx.include_in_clash = false ∧
    listClashNodes stC4Ex = [] := by
  exact ⟨rfl, rfl, rfl, rfl⟩

/-! ## Balance invariant lemmas (C5) -/

theorem nonneg_map_balance (users : List User) (uid nb now : Int)
    (h : ∀ u ∈ users, 0 ≤ u.coin_balance) (hnb : 0 ≤ nb) :
    ∀ u ∈ users.map (fun u => if u.id == uid then
        { u with coin_balance := nb, updated_at := now } else u),
      0 ≤ u.coin_balance := by
  intro u hu
  obtain ⟨u0, hu0, rfl⟩ := List.mem_map.mp hu
  by_cases hid : (u0.id == uid) = true
  · simp [hid, hnb]
  · have hid2 : (u0.id == uid) = false := by simpa using hid
    simpa [hid2] using h u0 hu0

theorem nonneg_map_quota (users : List User) (uid nq now : Int)
    (h : ∀ u ∈ users, 0 ≤ u.coin_balance) :
    ∀ u ∈ users.map (fun u => if u.id == uid then
        { u with traffic_quota := nq, updated_at := now } else u),
      0 ≤ u.coin_balance := by
  intro u hu
  obtain ⟨u0, hu0, rfl⟩ := List.mem_map.mp hu
  by_cases hid : (u0.id == uid) = true
  · simpa [hid] using h u0 hu0
  · have hid2 : (u0.id == uid) = false := by simpa using hid
    simpa [hid2] using h u0 hu0

theorem addCoins_ok_spec (st : DBState) (uid amount : Int) (d : Option String)
    (now : Int) (st2 : DBState) (u1 : User) (t : CoinTransaction)
    (hok : addCoins st uid amount d now = .ok (st2, u1, t)) :
    ∃ user, findUser st uid = some user ∧ 0 < amount ∧
      u1 = { user with coin_balance := user.coin_balance + amount, updated_at := now } ∧
      t = ⟨st.next_coin_transaction_id, uid, amount, "recharge", d, now⟩ ∧
      st2.coin_transactions = st.coin_transactions ++ [t] ∧
      st2.users = st.users.map (fun u => if u.id == uid then
        { u with coin_balance := user.coin_balance + amount, updated_at := now } else u) := by
  unfold addCoins at hok
  split at hok <;> rename_i hpos
  · exact Except.noConfusion hok
  split at hok <;> rename_i huser
  · exact Except.noConfusion hok
  rename_i user
  simp only [setUserBalance, insertCoinTransaction, Except.ok.injEq,
    Prod.mk.injEq] at hok
  obtain ⟨hst, hu1, ht⟩ := hok
  refine ⟨user, huser, by omega, hu1.symm, ht.symm, ?_, ?_⟩
  · rw [← hst, ← ht]
  · rw [← hst]

theorem deductCoins_ok_spec (st : DBState) (uid amount : Int) (d : Option String)
    (now : Int) (st2 : DBState) (u1 : User) (t : CoinTransaction)
    (hok : deductCoins st uid amount d now = .ok (st2, u1, t)) :
    ∃ user, findUser st uid = some user ∧ 0 < amount ∧
      ¬ user.coin_balance < amount ∧
      u1 = { user with coin_balance := user.coin_balance - amount, updated_at := now } ∧
      t = ⟨st.next_coin_transaction_id, uid, -amount, "purchase", d, now⟩ ∧
      st2.coin_transactions = st.coin_transactions ++ [t] ∧
      st2.users = st.users.map (fun u => if u.id == uid then
        { u with coin_balance := user.coin_balance - amount, updated_at := now } else u) := by
  unfold deductCoins at hok
  split at hok <;> rename_i hpos
  · exact Except.noConfusion hok
  split at hok <;> rename_i huser
  · exact Except.noConfusion hok
  rename_i user
  split at hok <;> rename_i hbal
  · exact Except.noConfusion hok
  simp only [setUserBalance, insertCoinTransaction, Except.ok.injEq,
    Prod.mk.injEq] at hok
  obtain ⟨hst, hu1, ht⟩ := hok
  refine ⟨user, huser, by omega, hbal, hu1.symm, ht.symm, ?_, ?_⟩
  · rw [← hst, ← ht]
  · rw [← hst]

theorem stepOp_preserves_nonneg (st : DBState) (h : balancesNonneg st)
    (op : BalanceOp) : balancesNonneg (stepOp st op) := by
  cases op with
  | recharge uid a d now =>
    cases hr : addCoins st uid a d now with
    | error e => simpa only [stepOp, hr] using h
    | ok v =>
      obtain ⟨st1, u1, t⟩ := v
      simp only [stepOp, hr]
      obtain ⟨user, huser, hpos, _, _, _, husers⟩ :=
        addCoins_ok_spec st uid a d now st1 u1 t hr
      intro u hu
      rw [husers] at hu
      have hub : 0 ≤ user.coin_balance :=
        h user (List.mem_of_find?_eq_some huser)
      exact nonneg_map_balance st.users uid (user.coin_balance + a) now h
        (by omega) u hu
  | deduct uid a d now =>
    cases hr : deductCoins st uid a d now with
    | error e => simpa only [stepOp, hr] using h
    | ok v =>
      obtain ⟨st1, u1, t⟩ := v
      simp only [stepOp, hr]
      obtain ⟨user, huser, hpos, hbal, _, _, _, husers⟩ :=
        deductCoins_ok_spec st uid a d now st1 u1 t hr
      intro u hu
      rw [husers] at hu
      have hub : 0 ≤ user.coin_balance :=
        h user (List.mem_of_find?_eq_some huser)
      exact nonneg_map_balance st.users uid (user.coin_balance - a) now h
        (by omega) u hu
  | purchase uid pid now =>
    cases hr : purchasePackageHandler st now uid pid with
    | error e => simpa only [stepOp, hr] using h
    | ok v =>
      obtain ⟨st1, res⟩ := v
      simp only [stepOp, hr]
      obtain ⟨user, package, huser, hpkg, hact, hdis, hbal⟩ :=
        purchase_ok_pre st now uid pid st1 res hr
      rw [purchase_ok_run st now uid pid user package hpkg hact huser hdis hbal] at hr
      simp only [Except.ok.injEq, Prod.mk.injEq] at hr
      obtain ⟨hst, _⟩ := hr
      intro u hu
      rw [← hst] at hu
      have hmid := nonneg_map_balance st.users uid
        (user.coin_balance - package.price) now h (by omega)
      exact nonneg_map_quota _ uid
        (user.traffic_quota + package.traffic_amount) now hmid u hu

theorem applyOps_preserves_nonneg (st : DBState) (h : balancesNonneg st)
    (ops : List BalanceOp) : balancesNonneg (applyOps st ops) := by
  induction ops generalizing st with
  | nil => exact h
  | cons op ops ih => exact ih (stepOp st op) (stepOp_preserves_nonneg st h op)

/-- C5: over any sequence of recharges, deductions and purchases, no user's
balance drops below zero; an over-balance deduction or purchase is rejected
with "Insufficient balance" and leaves the store unchanged; and every
successful mutation appends exactly one CoinTransaction whose signed amount
is the balance delta. -/
theorem c5_balance_never_negative (st : DBState) :
    (balancesNonneg st → ∀ ops : List BalanceOp, balancesNonneg (applyOps st ops)) ∧
    (∀ uid amount d now user, findUser st uid = some user → 0 < amount →
      user.coin_balance < amount →
      deductCoins st uid amount d now = .error (.badRequest "Insufficient balance") ∧
      stepOp st (.deduct uid amount d now) = st) ∧
    (∀ uid pid now user package, findPackage st pid = some package →
      package.is_active = true → findUser st uid = some user →
      user.status ≠ "disabled" → user.coin_balance < package.price →
      purchasePackageHandler st now uid pid =
        .error (.badRequest "Insufficient balance") ∧
      stepOp st (.purchase uid pid now) = st) ∧
    (∀ uid amount d now st2 u1 t, addCoins st uid amount d now = .ok (st2, u1, t) →
      st2.coin_transactions = st.coin_transactions ++ [t] ∧
      ∃ u0, findUser st uid = some u0 ∧
        t.amount = u1.coin_balance - u0.coin_balance ∧ t.amount = amount) ∧
    (∀ uid amount d now st2 u1 t, deductCoins st uid amount d now = .ok (st2, u1, t) →
      st2.coin_transactions = st.coin_transactions ++ [t] ∧
      ∃ u0, findUser st uid = some u0 ∧
        t.amount = u1.coin_balance - u0.coin_balance ∧ t.amount = -amount) ∧
    (∀ uid pid now st2 res, purchasePackageHandler st now uid pid = .ok (st2, res) →
      ∃ user package, findUser st uid = some user ∧ findPackage st pid = some package ∧
        st2.coin_transactions = st.coin_transactions ++
          [⟨st.next_coin_transaction_id, uid, -package.price, "purchase",
            some ("Purchase package: " ++ package.name), now⟩] ∧
        res.new_balance - user.coin_balance = -package.price) := by
  refine ⟨fun h ops => applyOps_preserves_nonneg st h ops, ?_, ?_, ?_, ?_, ?_⟩
  · intro uid amount d now user huser hpos hlt
    have hmain : deductCoins st uid amount d now =
        .error (.badRequest "Insufficient balance") := by
      unfold deductCoins
      rw [if_neg (by omega : ¬ amount ≤ 0)]
      simp only [huser]
      rw [if_pos hlt]
    refine ⟨hmain, ?_⟩
    simp only [stepOp, hmain]
  · intro uid pid now user package hpkg hact huser hdis hlt
    have hdis2 : (user.status == "disabled") = false := by simp [hdis]
    have hact2 : (!package.is_active) = false := by simp [hact]
    have hmain : purchasePackageHandler st now uid pid =
        .error (.badRequest "Insufficient balance") := by
      unfold purchasePackageHandler
      rw [hpkg]
      simp only [hact2, Bool.false_eq_true, if_false, huser, hdis2]
      rw [if_pos hlt]
    refine ⟨hmain, ?_⟩
    simp only [stepOp, hmain]
  · intro uid amount d now st2 u1 t hok
    obtain ⟨user, huser, hpos, hu1, ht, htx, _⟩ :=
      addCoins_ok_spec st uid amount d now st2 u1 t hok
    refine ⟨htx, user, huser, ?_, ?_⟩
    · rw [hu1, ht]
      simp
    · rw [ht]
  · intro uid amount d now st2 u1 t hok
    obtain ⟨user, huser, hpos, hbal, hu1, ht, htx, _⟩ :=
      deductCoins_ok_spec st uid amount d now st2 u1 t hok
    refine ⟨htx, user, huser, ?_, ?_⟩
    · rw [hu1, ht]
      simp
    · rw [ht]
  · intro uid pid now st2 res hok
    obtain ⟨user, package, huser, hpkg, hact, hdis, hbal⟩ :=
      purchase_ok_pre st now uid pid st2 res hok
    rw [purchase_ok_run st now uid pid user package hpkg hact huser hdis hbal] at hok
    simp only [Except.ok.injEq, Prod.mk.injEq] at hok
    obtain ⟨hst, hres⟩ := hok
    refine ⟨user, package, huser, hpkg, ?_, ?_⟩
    · rw [← hst]
    · rw [← hres]
      dsimp only
      ring

/-- C5 witness: on the purchase fixture, the invariant survives a recharge,
an over-balance deduction (rejected, store unchanged) and a purchase; and
the rejected deduction returns the insufficient-balance error. -/
theorem c5_balance_never_negative_witness :
    balancesNonneg (applyOps stPurchaseEx
      [.recharge 1 50 none 5, .deduct 2 5000 none 6, .purchase 2 10 7]) ∧
    deductCoins stPurchaseEx 2 5000 none 6 =
      .error (.badRequest "Insufficient balance") ∧
    stepOp stPurchaseEx (.deduct 2 5000 none 6) = stPurchaseEx := by
  have h := c5_balance_never_negative stPurchaseEx
  refine ⟨h.1 (by unfold balancesNonneg; decide) _, ?_, ?_⟩
  · exact (h.2.1 2 5000 none 6 userBuyerEx rfl (by decide) (by decide)).1
  · exact (h.2.1 2 5000 none 6 userBuyerEx rfl (by decide) (by decide)).2

end Niuss
